import Mathlib

/-!
Verification of the time-expression extractor
(`src/common/parsers/AbstractTimeExpressionParser.ts`).

The parser code is embedded shallowly: each routine of the source file
becomes a Lean function over an explicit representation of the regex
capture tuple (`RawMatch`) and of the components bag (`ParsingComponents`).
The components/result container itself lives outside the extracted core,
so it is modelled from the specification (certain/implied field bags with
assign / imply / get / isCertain / delete and a date linearization).
-/

namespace Chrono

/-- The component fields tracked by a components bag. -/
inductive Field where
  | day | month | year | hour | minute | second | millisecond | meridiem
deriving DecidableEq, Repr

/-- Meridiem enum values as in the source (`Meridiem.AM = 0`, `Meridiem.PM = 1`);
kept as integers because the range routine uses `-1` as a sentinel. -/
def Meridiem.AM : Int := 0

/-- Meridiem enum value for PM. -/
def Meridiem.PM : Int := 1

/-- Modelled from the spec: the components bag collaborator ("mapping from field
name ... to an integer, each tagged CERTAIN (explicit in text) or IMPLIED
(defaulted/inferred)"; "IMPLIED may be upgraded to CERTAIN; CERTAIN is never
downgraded or silently overwritten").  `known` holds CERTAIN values, `implied`
holds IMPLIED values; the source class is not under the extracted sources. -/
structure ParsingComponents where
  known : Field → Option Int
  implied : Field → Option Int

/-- Modelled from the spec: `assign` records a CERTAIN value, replacing any
implied value for the field. -/
def ParsingComponents.assign (c : ParsingComponents) (f : Field) (v : Int) :
    ParsingComponents :=
  { known := fun g => if g = f then some v else c.known g,
    implied := fun g => if g = f then none else c.implied g }

/-- Modelled from the spec: `imply` records an IMPLIED value unless the field
already has a CERTAIN value ("implied = defaulted/inferred, overwritable only
by a later certain value"). -/
def ParsingComponents.imply (c : ParsingComponents) (f : Field) (v : Int) :
    ParsingComponents :=
  if (c.known f).isSome then c
  else { c with implied := fun g => if g = f then some v else c.implied g }

/-- Modelled from the spec: querying a field, certain value winning over implied. -/
def ParsingComponents.get (c : ParsingComponents) (f : Field) : Option Int :=
  match c.known f with
  | some v => some v
  | none => c.implied f

/-- Modelled from the spec: a field is certain when it carries a CERTAIN value. -/
def ParsingComponents.isCertain (c : ParsingComponents) (f : Field) : Bool :=
  (c.known f).isSome

/-- Modelled from the spec: removing a field from the bag entirely. -/
def ParsingComponents.delete (c : ParsingComponents) (f : Field) : ParsingComponents :=
  { known := fun g => if g = f then none else c.known g,
    implied := fun g => if g = f then none else c.implied g }

/-- Numeric read of a field as in the JavaScript arithmetic on `get` results
(an absent field coerces to `0`). -/
def ParsingComponents.getNum (c : ParsingComponents) (f : Field) : Int :=
  (c.get f).getD 0

/-- The empty components bag. -/
def ParsingComponents.empty : ParsingComponents :=
  { known := fun _ => none, implied := fun _ => none }

/-- Modelled from the spec: the instant denoted by a components bag
(`components.date().getTime()`), as a linear millisecond count.  Day, hour,
minute, second and millisecond contribute their exact JavaScript `Date`
weights; year and month contribute a dominating term, which agrees with
`Date` ordering whenever the two compared bags share year and month — the only
way the routine below compares instants (the end bag is a clone of the start
bag in those fields). -/
def ParsingComponents.dateValue (c : ParsingComponents) : Int :=
  (c.getNum .year * 12 + c.getNum .month) * 2678400000 +
    c.getNum .day * 86400000 + c.getNum .hour * 3600000 +
    c.getNum .minute * 60000 + c.getNum .second * 1000 +
    c.getNum .millisecond

/-- The reference instant's calendar date (`dayjs(context.refDate)`), with the
month already in calendar form (`month() + 1`). -/
structure RefDate where
  year : Int
  month : Int
  day : Int

/-- Modelled from the spec: `context.createParsingComponents()` — "a
components/result factory producing typed, queryable outputs"; the reference
instant is "used to imply unset day/month/year". -/
def createParsingComponents (rd : RefDate) : ParsingComponents :=
  ((ParsingComponents.empty.imply .day rd.day).imply .month rd.month).imply
    .year rd.year

/-- The meridiem capture alternatives (`a.m.`, `am`, `a`, … start with `a`;
`p.m.`, `pm`, `p` start with `p`); the code inspects only the lowercased
first character. -/
inductive AmPm where
  | a | p
deriving DecidableEq, Repr

/-- One regex capture tuple, for either grammar: `hourG` is the integer value
of digit-group 2, `minuteG`/`secondG` the values of groups 3/4 when present,
`milliG` the digit list of group 5, `ampmG` the meridiem token of group 6. -/
structure RawMatch where
  hourG : Nat
  minuteG : Option Nat
  secondG : Option Nat
  milliG : Option (List Nat)
  ampmG : Option AmPm

/-- `parseInt` over a digit list. -/
def digitsToNat (ds : List Nat) : Nat :=
  ds.foldl (fun a d => a * 10 + d) 0

/-- The hour/minute decode step shared by the decode routines:
`hour = parseInt(group2)`; minutes from group 3 when present, otherwise the
packed `HHMM` split when `hour > 100`. -/
def decodeHourMinute (m : RawMatch) : Nat × Nat :=
  match m.minuteG with
  | some mv => (m.hourG, mv)
  | none => if 100 < m.hourG then (m.hourG / 100, m.hourG % 100) else (m.hourG, 0)

/-- The millisecond block of the decode routines
(`parseInt(match[5].substring(0, 3))`, fail at `≥ 1000`, assign). -/
def milliStep (c : ParsingComponents) (m : RawMatch) : Option ParsingComponents :=
  match m.milliG with
  | some ds =>
    if 1000 ≤ digitsToNat (ds.take 3) then none
    else some (c.assign .millisecond (digitsToNat (ds.take 3)))
  | none => some c

/-- The second block of the decode routines
(`parseInt(match[4])`, fail at `≥ 60`, assign). -/
def secondStep (c : ParsingComponents) (m : RawMatch) : Option ParsingComponents :=
  match m.secondG with
  | some s => if 60 ≤ s then none else some (c.assign .second (s : Int))
  | none => some c

/-- The millisecond-then-second tail shared by the primary and end decode
routines (source lines 148–162 and 245–259, textually identical blocks). -/
def msSecStep (c : ParsingComponents) (m : RawMatch) : Option ParsingComponents :=
  (milliStep c m).bind (fun c1 => secondStep c1 m)

/-- The hour/minute validation, provisional-PM, and AM/PM token block of the
primary decode (source lines 108–133): returns the adjusted hour and the
meridiem local (`none` when the local stays `null`), or `none` on a
validation failure. -/
def primaryHourMeridiem (m : RawMatch) : Option (Nat × Option Int) :=
  let hour := (decodeHourMinute m).1
  if 60 ≤ (decodeHourMinute m).2 ∨ 24 < hour then none
  else
    match m.ampmG with
    | none => some (hour, if 12 ≤ hour then some Meridiem.PM else none)
    | some ap =>
      if 12 < hour then none
      else
        match ap with
        | AmPm.a => some (if hour = 12 then 0 else hour, some Meridiem.AM)
        | AmPm.p => some (if hour ≠ 12 then hour + 12 else hour, some Meridiem.PM)

/-- The assignment block of the primary decode (source lines 135–146):
hour and minute are assigned; the meridiem is assigned when the local was
set, otherwise implied from the adjusted hour. -/
def assignHourMinuteMeridiem (c : ParsingComponents) (hour1 minute : Nat)
    (mer1 : Option Int) : ParsingComponents :=
  let c1 := (c.assign .hour (hour1 : Int)).assign .minute (minute : Int)
  match mer1 with
  | some mv => c1.assign .meridiem mv
  | none =>
    if hour1 < 12 then c1.imply .meridiem Meridiem.AM
    else c1.imply .meridiem Meridiem.PM

/-- `extractPrimaryTimeComponents` (source lines 91–165), composed from its
sequential blocks. -/
def extractPrimaryTimeComponents (rd : RefDate) (m : RawMatch) :
    Option ParsingComponents :=
  (primaryHourMeridiem m).bind (fun hm1 =>
    msSecStep
      (assignHourMinuteMeridiem (createParsingComponents rd) hm1.1
        (decodeHourMinute m).2 hm1.2) m)

/-- A parse result: the matched span (`index`, `text`), the start components,
and the optional end components (`endc` stands for the source's `result.end`;
`end` is a Lean keyword). -/
structure ParsingResult where
  index : Nat
  text : String
  start : ParsingComponents
  endc : Option ParsingComponents

/-- `extractStartTimeComponent` (source lines 167–240), translated on its own:
the claims compare it against `extractPrimaryTimeComponents`, so no code is
shared between the two translations beyond the components bag. -/
def extractStartTimeComponent (result : ParsingResult) (m : RawMatch) :
    Option ParsingResult :=
  let hour0 := m.hourG
  let hm : Nat × Nat :=
    match m.minuteG with
    | some mv => (hour0, mv)
    | none => if 100 < hour0 then (hour0 / 100, hour0 % 100) else (hour0, 0)
  if 60 ≤ hm.2 ∨ 24 < hm.1 then none
  else
    let meridiem0 : Option Int := if 12 ≤ hm.1 then some Meridiem.PM else none
    let afterTok : Option (Nat × Option Int) :=
      match m.ampmG with
      | none => some (hm.1, meridiem0)
      | some ap =>
        if 12 < hm.1 then none
        else
          match ap with
          | AmPm.a => some (if hm.1 = 12 then 0 else hm.1, some Meridiem.AM)
          | AmPm.p => some (if hm.1 ≠ 12 then hm.1 + 12 else hm.1, some Meridiem.PM)
    match afterTok with
    | none => none
    | some (hour1, meridiem1) =>
      let s1 := ((result.start.assign .hour (hour1 : Int)).assign
        .minute (hm.2 : Int))
      let s2 :=
        match meridiem1 with
        | some mv => s1.assign .meridiem mv
        | none =>
          if hour1 < 12 then s1.imply .meridiem Meridiem.AM
          else s1.imply .meridiem Meridiem.PM
      let afterMs : Option ParsingComponents :=
        match m.milliG with
        | some ds =>
          if 1000 ≤ digitsToNat (ds.take 3) then none
          else some (s2.assign .millisecond (digitsToNat (ds.take 3)))
        | none => some s2
      match afterMs with
      | none => none
      | some s3 =>
        match m.secondG with
        | some sv =>
          if 60 ≤ sv then none
          else some { result with start := s3.assign .second (sv : Int) }
        | none => some { result with start := s3 }

/-- The provisional-PM and AM/PM token block of the end decode (source lines
277–318): from the start bag `start0`, the end bag `e2` (after the
millisecond/second block) and the decoded hour, it returns the adjusted end
hour, the meridiem local (with the `-1` sentinel), the end bag (the AM token
with hour 12 also implies the end's day forward when the day is not certain),
and the start bag after the backward meridiem propagation. -/
def endTokenStep (start0 e2 : ParsingComponents) (hour : Nat)
    (ap : Option AmPm) :
    Option (Nat × Int × ParsingComponents × ParsingComponents) :=
  match ap with
  | none => some (hour, if 12 ≤ hour then Meridiem.PM else -1, e2, start0)
  | some tok =>
    if 12 < hour then none
    else
      let stepA : Nat × Int × ParsingComponents :=
        match tok with
        | AmPm.a =>
          (if hour = 12 then 0 else hour, Meridiem.AM,
            if hour = 12 then
              (if e2.isCertain .day then e2
               else e2.imply .day (e2.getNum .day + 1))
            else e2)
        | AmPm.p =>
          (if hour ≠ 12 then hour + 12 else hour, Meridiem.PM, e2)
      let start1 :=
        if start0.isCertain .meridiem then start0
        else if stepA.2.1 = Meridiem.AM then
          let s := start0.imply .meridiem Meridiem.AM
          if s.getNum .hour = 12 then s.assign .hour 0 else s
        else
          let s := start0.imply .meridiem Meridiem.PM
          if s.getNum .hour ≠ 12 then s.assign .hour (s.getNum .hour + 12)
          else s
      some (stepA.1, stepA.2.1, stepA.2.2, start1)

/-- The end meridiem assignment/inference block (source lines 324–336):
with the local meridiem set (`≥ 0`) it is assigned; otherwise the end's
meridiem is implied AM for a certain-PM start with a larger hour, implied PM
for an end hour above 12, and otherwise left alone. -/
def endMeridiemInfer (e4 start1 : ParsingComponents) (hour1 : Nat)
    (mer1 : Int) : ParsingComponents :=
  if 0 ≤ mer1 then e4.assign .meridiem mer1
  else if start1.isCertain .meridiem = true ∧
      start1.getNum .meridiem = Meridiem.PM ∧
      start1.getNum .hour > (hour1 : Int) then
    (e4.delete .meridiem).imply .meridiem Meridiem.AM
  else if 12 < hour1 then
    (e4.delete .meridiem).imply .meridiem Meridiem.PM
  else e4

/-- The midnight-rollover block (source lines 338–340): when the end's
instant is strictly before the start's, the end's day is implied one forward. -/
def endRollover (e5 start1 : ParsingComponents) : ParsingComponents :=
  if e5.dateValue < start1.dateValue then e5.imply .day (e5.getNum .day + 1)
  else e5

/-- `extractEndTimeComponent` (source lines 242–343), composed from its
sequential blocks.  The end bag starts as a clone of the start bag;
`matchText` is the following match's full text (`match[0]`), appended to the
result's span. -/
def extractEndTimeComponent (result : ParsingResult) (matchText : String)
    (m : RawMatch) : Option ParsingResult :=
  (msSecStep result.start m).bind (fun e2 =>
    if 60 ≤ (decodeHourMinute m).2 ∨ 24 < (decodeHourMinute m).1 then none
    else
      (endTokenStep result.start e2 (decodeHourMinute m).1 m.ampmG).bind
        (fun step =>
          let e4 := (step.2.2.1.assign .hour (step.1 : Int)).assign
            .minute ((decodeHourMinute m).2 : Int)
          let e5 := endMeridiemInfer e4 step.2.2.2 step.1 step.2.1
          some { result with
            text := result.text ++ matchText, start := step.2.2.2,
            endc := some (endRollover e5 step.2.2.2) }))

/-- JavaScript whitespace characters relevant to the timezone guard regex. -/
def isWsChar (c : Char) : Bool :=
  c = ' ' || c = '\t' || c = '\n' || c = '\r' || c = '\x0b' || c = '\x0c'

/-- The timezone-offset guard (source line 83): whether the following match's
text matches the anchored pattern "optional whitespace, a sign, optional
whitespace, exactly 3 or 4 digits, end of text". -/
def isTzOffsetLike (s : String) : Bool :=
  match s.data.dropWhile isWsChar with
  | [] => false
  | c :: rest =>
    (c = '+' || c = '-') &&
      (let r := rest.dropWhile isWsChar
       r.all (fun d => d.isDigit) && decide (3 ≤ r.length) && decide (r.length ≤ 4))

/-- `extract` (source lines 61–89).  `idx` and `matchedText` are the primary
match's span after the boundary group (`match.index + match[1].length` and
`match[0].substring(match[1].length)`); `follow` carries the following-pattern
match (its full text and capture tuple) when one is found immediately after
the primary match.  The source first implies day/month/year into the fresh
result's start bag and then replaces that bag wholesale with the decode
routine's output, so those two statements net to using the decode output. -/
def extract (rd : RefDate) (idx : Nat) (matchedText : String) (m : RawMatch)
    (follow : Option (String × RawMatch)) : Option ParsingResult :=
  match extractPrimaryTimeComponents rd m with
  | none => none
  | some start =>
    let result : ParsingResult :=
      { index := idx, text := matchedText, start := start, endc := none }
    match follow with
    | none => some result
    | some (ftext, fm) =>
      if isTzOffsetLike ftext then some result
      else
        match extractEndTimeComponent result ftext fm with
        | none => some result
        | some newResult => some newResult

/-! ### Basic lemmas about the components bag -/

@[simp]
theorem ParsingComponents.get_assign_self (c : ParsingComponents) (f : Field)
    (v : Int) : (c.assign f v).get f = some v := by
  simp [ParsingComponents.assign, ParsingComponents.get]

@[simp]
theorem ParsingComponents.get_assign_of_ne (c : ParsingComponents)
    (f g : Field) (v : Int) (h : g ≠ f) : (c.assign f v).get g = c.get g := by
  simp [ParsingComponents.assign, ParsingComponents.get, h]

@[simp]
theorem ParsingComponents.isCertain_assign_self (c : ParsingComponents)
    (f : Field) (v : Int) : (c.assign f v).isCertain f = true := by
  simp [ParsingComponents.assign, ParsingComponents.isCertain]

@[simp]
theorem ParsingComponents.isCertain_assign_of_ne (c : ParsingComponents)
    (f g : Field) (v : Int) (h : g ≠ f) :
    (c.assign f v).isCertain g = c.isCertain g := by
  simp [ParsingComponents.assign, ParsingComponents.isCertain, h]

@[simp]
theorem ParsingComponents.get_imply_of_ne (c : ParsingComponents)
    (f g : Field) (v : Int) (h : g ≠ f) : (c.imply f v).get g = c.get g := by
  unfold ParsingComponents.imply
  split
  · rfl
  · simp [ParsingComponents.get, h]

@[simp]
theorem ParsingComponents.isCertain_imply (c : ParsingComponents)
    (f g : Field) (v : Int) : (c.imply f v).isCertain g = c.isCertain g := by
  unfold ParsingComponents.imply
  split
  · rfl
  · simp [ParsingComponents.isCertain]

theorem ParsingComponents.get_imply_self_of_not_certain (c : ParsingComponents)
    (f : Field) (v : Int) (h : c.isCertain f = false) :
    (c.imply f v).get f = some v := by
  unfold ParsingComponents.isCertain at h
  cases hk : c.known f with
  | some v0 => rw [hk] at h; simp at h
  | none => simp [ParsingComponents.imply, ParsingComponents.get, hk]

theorem ParsingComponents.imply_of_certain (c : ParsingComponents)
    (f : Field) (v : Int) (h : c.isCertain f = true) : c.imply f v = c := by
  unfold ParsingComponents.imply
  unfold ParsingComponents.isCertain at h
  simp [h]

@[simp]
theorem ParsingComponents.get_delete_self (c : ParsingComponents) (f : Field) :
    (c.delete f).get f = none := by
  simp [ParsingComponents.delete, ParsingComponents.get]

@[simp]
theorem ParsingComponents.get_delete_of_ne (c : ParsingComponents)
    (f g : Field) (h : g ≠ f) : (c.delete f).get g = c.get g := by
  simp [ParsingComponents.delete, ParsingComponents.get, h]

@[simp]
theorem ParsingComponents.isCertain_delete_self (c : ParsingComponents)
    (f : Field) : (c.delete f).isCertain f = false := by
  simp [ParsingComponents.delete, ParsingComponents.isCertain]

@[simp]
theorem ParsingComponents.isCertain_delete_of_ne (c : ParsingComponents)
    (f g : Field) (h : g ≠ f) : (c.delete f).isCertain g = c.isCertain g := by
  simp [ParsingComponents.delete, ParsingComponents.isCertain, h]

theorem createParsingComponents_isCertain (rd : RefDate) (f : Field) :
    (createParsingComponents rd).isCertain f = false := by
  simp [createParsingComponents, ParsingComponents.empty]
  cases f <;> rfl

theorem createParsingComponents_get_day (rd : RefDate) :
    (createParsingComponents rd).get .day = some rd.day := by
  rfl

theorem createParsingComponents_get_month (rd : RefDate) :
    (createParsingComponents rd).get .month = some rd.month := by
  rfl

theorem createParsingComponents_get_year (rd : RefDate) :
    (createParsingComponents rd).get .year = some rd.year := by
  rfl

/-! ### Lemmas about the millisecond/second tail -/

theorem milliStep_preserves (c c' : ParsingComponents) (m : RawMatch)
    (h : milliStep c m = some c') (f : Field) (hf : f ≠ .millisecond) :
    c'.get f = c.get f ∧ c'.isCertain f = c.isCertain f := by
  unfold milliStep at h
  split at h
  · split at h
    · exact absurd h (by simp)
    · injection h with h
      subst h
      simp [hf]
  · injection h with h
    subst h
    exact ⟨rfl, rfl⟩

theorem secondStep_preserves (c c' : ParsingComponents) (m : RawMatch)
    (h : secondStep c m = some c') (f : Field) (hf : f ≠ .second) :
    c'.get f = c.get f ∧ c'.isCertain f = c.isCertain f := by
  unfold secondStep at h
  split at h
  · split at h
    · exact absurd h (by simp)
    · injection h with h
      subst h
      simp [hf]
  · injection h with h
    subst h
    exact ⟨rfl, rfl⟩

theorem msSecStep_preserves (c c' : ParsingComponents) (m : RawMatch)
    (h : msSecStep c m = some c') (f : Field)
    (hf1 : f ≠ .millisecond) (hf2 : f ≠ .second) :
    c'.get f = c.get f ∧ c'.isCertain f = c.isCertain f := by
  unfold msSecStep at h
  rw [Option.bind_eq_some] at h
  obtain ⟨c1, h1, h2⟩ := h
  obtain ⟨ha, hb⟩ := milliStep_preserves c c1 m h1 f hf1
  obtain ⟨hc, hd⟩ := secondStep_preserves c1 c' m h2 f hf2
  exact ⟨hc.trans ha, hd.trans hb⟩

theorem msSecStep_second (c c' : ParsingComponents) (m : RawMatch)
    (h : msSecStep c m = some c') :
    (∀ s, m.secondG = some s →
      s < 60 ∧ c'.get .second = some (s : Int) ∧ c'.isCertain .second = true) ∧
    (m.secondG = none →
      c'.get .second = c.get .second ∧ c'.isCertain .second = c.isCertain .second) := by
  unfold msSecStep at h
  rw [Option.bind_eq_some] at h
  obtain ⟨c1, h1, h2⟩ := h
  obtain ⟨ha, hb⟩ := milliStep_preserves c c1 m h1 .second (by simp)
  unfold secondStep at h2
  constructor
  · intro s hs
    rw [hs] at h2
    dsimp only at h2
    split at h2
    · exact absurd h2 (by simp)
    · injection h2 with h2
      subst h2
      simp
      omega
  · intro hs
    rw [hs] at h2
    dsimp only at h2
    injection h2 with h2
    subst h2
    exact ⟨ha, hb⟩

theorem msSecStep_milli (c c' : ParsingComponents) (m : RawMatch)
    (h : msSecStep c m = some c') :
    (∀ ds, m.milliG = some ds →
      digitsToNat (ds.take 3) < 1000 ∧
      c'.get .millisecond = some (digitsToNat (ds.take 3) : Int) ∧
      c'.isCertain .millisecond = true) ∧
    (m.milliG = none →
      c'.get .millisecond = c.get .millisecond ∧
      c'.isCertain .millisecond = c.isCertain .millisecond) := by
  unfold msSecStep at h
  rw [Option.bind_eq_some] at h
  obtain ⟨c1, h1, h2⟩ := h
  obtain ⟨hc, hd⟩ := secondStep_preserves c1 c' m h2 .millisecond (by simp)
  unfold milliStep at h1
  constructor
  · intro ds hds
    rw [hds] at h1
    dsimp only at h1
    split at h1
    · exact absurd h1 (by simp)
    · injection h1 with h1
      subst h1
      refine ⟨by omega, ?_, ?_⟩
      · rw [hc]
        simp
      · rw [hd]
        simp
  · intro hds
    rw [hds] at h1
    dsimp only at h1
    injection h1 with h1
    subst h1
    exact ⟨hc, hd⟩

/-! ### Lemmas about the primary-decode blocks -/

theorem primaryHourMeridiem_no_token (m : RawMatch) (htok : m.ampmG = none) :
    primaryHourMeridiem m =
      if 60 ≤ (decodeHourMinute m).2 ∨ 24 < (decodeHourMinute m).1 then none
      else some ((decodeHourMinute m).1,
        if 12 ≤ (decodeHourMinute m).1 then some Meridiem.PM else none) := by
  simp only [primaryHourMeridiem, htok]

theorem primaryHourMeridiem_a (m : RawMatch) (htok : m.ampmG = some AmPm.a) :
    primaryHourMeridiem m =
      if 60 ≤ (decodeHourMinute m).2 ∨ 24 < (decodeHourMinute m).1 then none
      else if 12 < (decodeHourMinute m).1 then none
      else some (if (decodeHourMinute m).1 = 12 then 0 else (decodeHourMinute m).1,
        some Meridiem.AM) := by
  simp only [primaryHourMeridiem, htok]

theorem primaryHourMeridiem_p (m : RawMatch) (htok : m.ampmG = some AmPm.p) :
    primaryHourMeridiem m =
      if 60 ≤ (decodeHourMinute m).2 ∨ 24 < (decodeHourMinute m).1 then none
      else if 12 < (decodeHourMinute m).1 then none
      else some (if (decodeHourMinute m).1 ≠ 12 then (decodeHourMinute m).1 + 12
        else (decodeHourMinute m).1, some Meridiem.PM) := by
  simp only [primaryHourMeridiem, htok]

theorem assignHMM_get_hour (c : ParsingComponents) (h1 mn : Nat)
    (mer : Option Int) :
    (assignHourMinuteMeridiem c h1 mn mer).get .hour = some (h1 : Int) ∧
    (assignHourMinuteMeridiem c h1 mn mer).isCertain .hour = true := by
  unfold assignHourMinuteMeridiem
  cases mer with
  | some mv => simp
  | none =>
    dsimp only
    split <;> simp

theorem assignHMM_get_minute (c : ParsingComponents) (h1 mn : Nat)
    (mer : Option Int) :
    (assignHourMinuteMeridiem c h1 mn mer).get .minute = some (mn : Int) ∧
    (assignHourMinuteMeridiem c h1 mn mer).isCertain .minute = true := by
  unfold assignHourMinuteMeridiem
  cases mer with
  | some mv => simp
  | none =>
    dsimp only
    split <;> simp

theorem assignHMM_meridiem_some (c : ParsingComponents) (h1 mn : Nat)
    (mv : Int) :
    (assignHourMinuteMeridiem c h1 mn (some mv)).get .meridiem = some mv ∧
    (assignHourMinuteMeridiem c h1 mn (some mv)).isCertain .meridiem = true := by
  unfold assignHourMinuteMeridiem
  simp

theorem assignHMM_meridiem_none (c : ParsingComponents) (h1 mn : Nat)
    (hc : c.isCertain .meridiem = false) :
    (assignHourMinuteMeridiem c h1 mn none).get .meridiem =
      some (if h1 < 12 then Meridiem.AM else Meridiem.PM) ∧
    (assignHourMinuteMeridiem c h1 mn none).isCertain .meridiem = false := by
  unfold assignHourMinuteMeridiem
  dsimp only
  have hc1 : (((c.assign .hour (h1 : Int)).assign .minute (mn : Int)).isCertain
      .meridiem) = false := by
    rw [ParsingComponents.isCertain_assign_of_ne _ _ _ _ (by simp),
      ParsingComponents.isCertain_assign_of_ne _ _ _ _ (by simp)]
    exact hc
  split
  · exact ⟨ParsingComponents.get_imply_self_of_not_certain _ _ _ hc1, by simp [hc1]⟩
  · exact ⟨ParsingComponents.get_imply_self_of_not_certain _ _ _ hc1, by simp [hc1]⟩

theorem assignHMM_preserves (c : ParsingComponents) (h1 mn : Nat)
    (mer : Option Int) (f : Field) (hf1 : f ≠ .hour) (hf2 : f ≠ .minute)
    (hf3 : f ≠ .meridiem) :
    (assignHourMinuteMeridiem c h1 mn mer).get f = c.get f ∧
    (assignHourMinuteMeridiem c h1 mn mer).isCertain f = c.isCertain f := by
  unfold assignHourMinuteMeridiem
  cases mer with
  | some mv => simp [hf1, hf2, hf3]
  | none =>
    dsimp only
    split <;> simp [hf1, hf2, hf3]

theorem createParsingComponents_get_hour (rd : RefDate) :
    (createParsingComponents rd).get .hour = none := rfl

theorem createParsingComponents_get_minute (rd : RefDate) :
    (createParsingComponents rd).get .minute = none := rfl

theorem createParsingComponents_get_second (rd : RefDate) :
    (createParsingComponents rd).get .second = none := rfl

theorem createParsingComponents_get_millisecond (rd : RefDate) :
    (createParsingComponents rd).get .millisecond = none := rfl

theorem createParsingComponents_get_meridiem (rd : RefDate) :
    (createParsingComponents rd).get .meridiem = none := rfl

/-- Bundle of facts about a successful primary decode, phrased through the
token block's output. -/
theorem primary_fields (rd : RefDate) (m : RawMatch) (c : ParsingComponents)
    (h : extractPrimaryTimeComponents rd m = some c) :
    ∃ hm1, primaryHourMeridiem m = some hm1 ∧
      c.get .hour = some (hm1.1 : Int) ∧ c.isCertain .hour = true ∧
      c.get .minute = some ((decodeHourMinute m).2 : Int) ∧
      c.isCertain .minute = true ∧
      (∀ mv, hm1.2 = some mv →
        c.get .meridiem = some mv ∧ c.isCertain .meridiem = true) ∧
      (hm1.2 = none →
        c.get .meridiem =
          some (if hm1.1 < 12 then Meridiem.AM else Meridiem.PM) ∧
        c.isCertain .meridiem = false) ∧
      (∀ f, f ≠ .hour → f ≠ .minute → f ≠ .meridiem → f ≠ .millisecond →
        f ≠ .second →
        c.get f = (createParsingComponents rd).get f ∧
        c.isCertain f = (createParsingComponents rd).isCertain f) := by
  unfold extractPrimaryTimeComponents at h
  rw [Option.bind_eq_some] at h
  obtain ⟨hm1, h1, h2⟩ := h
  refine ⟨hm1, h1, ?_, ?_, ?_, ?_, ?_, ?_, ?_⟩
  · rw [(msSecStep_preserves _ _ _ h2 .hour (by simp) (by simp)).1]
    exact (assignHMM_get_hour _ _ _ _).1
  · rw [(msSecStep_preserves _ _ _ h2 .hour (by simp) (by simp)).2]
    exact (assignHMM_get_hour _ _ _ _).2
  · rw [(msSecStep_preserves _ _ _ h2 .minute (by simp) (by simp)).1]
    exact (assignHMM_get_minute _ _ _ _).1
  · rw [(msSecStep_preserves _ _ _ h2 .minute (by simp) (by simp)).2]
    exact (assignHMM_get_minute _ _ _ _).2
  · intro mv hmv
    rw [(msSecStep_preserves _ _ _ h2 .meridiem (by simp) (by simp)).1,
      (msSecStep_preserves _ _ _ h2 .meridiem (by simp) (by simp)).2, hmv]
    exact assignHMM_meridiem_some _ _ _ _
  · intro hmv
    rw [(msSecStep_preserves _ _ _ h2 .meridiem (by simp) (by simp)).1,
      (msSecStep_preserves _ _ _ h2 .meridiem (by simp) (by simp)).2, hmv]
    exact assignHMM_meridiem_none _ _ _ (createParsingComponents_isCertain rd _)
  · intro f hf1 hf2 hf3 hf4 hf5
    rw [(msSecStep_preserves _ _ _ h2 f hf4 hf5).1,
      (msSecStep_preserves _ _ _ h2 f hf4 hf5).2]
    exact assignHMM_preserves _ _ _ _ f hf1 hf2 hf3

/-- Facts about the second and millisecond fields of a successful primary
decode. -/
theorem primary_ms_sec (rd : RefDate) (m : RawMatch) (c : ParsingComponents)
    (h : extractPrimaryTimeComponents rd m = some c) :
    (∀ s, m.secondG = some s →
      s < 60 ∧ c.get .second = some (s : Int) ∧ c.isCertain .second = true) ∧
    (m.secondG = none → c.get .second = none) ∧
    (∀ ds, m.milliG = some ds →
      digitsToNat (ds.take 3) < 1000 ∧
      c.get .millisecond = some (digitsToNat (ds.take 3) : Int) ∧
      c.isCertain .millisecond = true) ∧
    (m.milliG = none → c.get .millisecond = none) := by
  unfold extractPrimaryTimeComponents at h
  rw [Option.bind_eq_some] at h
  obtain ⟨hm1, h1, h2⟩ := h
  obtain ⟨hsa, hsb⟩ := msSecStep_second _ _ _ h2
  obtain ⟨hma, hmb⟩ := msSecStep_milli _ _ _ h2
  refine ⟨hsa, ?_, hma, ?_⟩
  · intro hs
    rw [(hsb hs).1,
      (assignHMM_preserves _ _ _ _ .second (by simp) (by simp) (by simp)).1]
    exact createParsingComponents_get_second rd
  · intro hds
    rw [(hmb hds).1,
      (assignHMM_preserves _ _ _ _ .millisecond (by simp) (by simp) (by simp)).1]
    exact createParsingComponents_get_millisecond rd

/-! ### Concrete inputs used in examples, counterexamples and witnesses -/

/-- A reference instant: 2012-08-10. -/
def rd0 : RefDate := ⟨2012, 8, 10⟩

/-- The capture tuple of the primary match on "15:30". -/
def raw15c30 : RawMatch := ⟨15, some 30, none, none, none⟩

/-- The capture tuple of the primary match on "9:30". -/
def raw9c30 : RawMatch := ⟨9, some 30, none, none, none⟩

/-- The capture tuple of the primary match on "1530". -/
def raw1530 : RawMatch := ⟨1530, none, none, none, none⟩

/-- The capture tuple of the primary match on "13pm". -/
def raw13pm : RawMatch := ⟨13, none, none, none, some AmPm.p⟩

/-- The capture tuple of the primary match on "12am". -/
def raw12am : RawMatch := ⟨12, none, none, none, some AmPm.a⟩

/-- The capture tuple of the primary match on "12pm". -/
def raw12pm : RawMatch := ⟨12, none, none, none, some AmPm.p⟩

/-- The capture tuple of the primary match on "24:00". -/
def raw24c00 : RawMatch := ⟨24, some 0, none, none, none⟩

/-- The capture tuple of the primary match on "10". -/
def raw10 : RawMatch := ⟨10, none, none, none, none⟩

/-- The capture tuple of the following match on "-11pm". -/
def raw11pm : RawMatch := ⟨11, none, none, none, some AmPm.p⟩

/-- The capture tuple of the primary match on "11pm". -/
def raw11pmPrimary : RawMatch := ⟨11, none, none, none, some AmPm.p⟩

/-- The capture tuple of the following match on "-1am". -/
def raw1am : RawMatch := ⟨1, none, none, none, some AmPm.a⟩

/-- The capture tuple of the primary match on "14:30". -/
def raw14c30 : RawMatch := ⟨14, some 30, none, none, none⟩

/-- The capture tuple the following grammar would produce on "-0500". -/
def raw0500 : RawMatch := ⟨500, none, none, none, none⟩

/-- The capture tuple of the primary match on "10:00". -/
def raw10c00 : RawMatch := ⟨10, some 0, none, none, none⟩

/-- The capture tuple of the following match on "-13:00". -/
def raw13c00 : RawMatch := ⟨13, some 0, none, none, none⟩

/-- The capture tuple of the primary match on "5:00". -/
def raw5c00 : RawMatch := ⟨5, some 0, none, none, none⟩

/-- The capture tuple of the following match on "-12:00". -/
def raw12c00 : RawMatch := ⟨12, some 0, none, none, none⟩

/-- A capture tuple with minute digits "60". -/
def raw8c60 : RawMatch := ⟨8, some 60, none, none, none⟩

/-! ### Claim C1 -/

/-- C1 counterexample: the tokenless match "15:30" decodes successfully, but
the meridiem of the returned start components is PM tagged CERTAIN, not
IMPLIED as the claim states for every tokenless match. -/
theorem claim1_counterexample :
    raw15c30.ampmG = none ∧
    (extractPrimaryTimeComponents rd0 raw15c30).map
      (fun c => (c.get .meridiem, c.isCertain .meridiem)) =
      some (some Meridiem.PM, true) := by
  exact ⟨rfl, rfl⟩

/-- C1 (amended): for every successful primary decode of a match with no
AM/PM token, when the decoded hour is below 12 the meridiem is IMPLIED AM;
when the decoded hour is 12 or more the meridiem is PM but tagged CERTAIN
(the source assigns the provisional PM rather than implying it). -/
theorem claim1_amended (rd : RefDate) (m : RawMatch) (c : ParsingComponents)
    (htok : m.ampmG = none)
    (h : extractPrimaryTimeComponents rd m = some c) :
    ((decodeHourMinute m).1 < 12 →
      c.get .meridiem = some Meridiem.AM ∧ c.isCertain .meridiem = false) ∧
    (12 ≤ (decodeHourMinute m).1 →
      c.get .meridiem = some Meridiem.PM ∧ c.isCertain .meridiem = true) := by
  obtain ⟨hm1, h1, hhour, hhc, hmin, hmc, hmers, hmern, hpres⟩ :=
    primary_fields rd m c h
  rw [primaryHourMeridiem_no_token m htok] at h1
  split at h1
  · exact absurd h1 (by simp)
  · injection h1 with h1
    subst h1
    constructor
    · intro hlt
      have hn : ((decodeHourMinute m).1,
          if 12 ≤ (decodeHourMinute m).1 then some Meridiem.PM else none).2 =
          none := by
        dsimp only
        rw [if_neg (by omega)]
      have := hmern hn
      dsimp only at this
      rw [if_pos hlt] at this
      exact this
    · intro hge
      refine hmers Meridiem.PM ?_
      dsimp only
      rw [if_pos hge]

/-- C1 witness: the amended statement at the concrete match "9:30". -/
theorem claim1_witness :
    raw9c30.ampmG = none ∧
    ((extractPrimaryTimeComponents rd0 raw9c30).getD
      ParsingComponents.empty).get .meridiem = some Meridiem.AM ∧
    ((extractPrimaryTimeComponents rd0 raw9c30).getD
      ParsingComponents.empty).isCertain .meridiem = false := by
  have h : extractPrimaryTimeComponents rd0 raw9c30 =
      some ((extractPrimaryTimeComponents rd0 raw9c30).getD
        ParsingComponents.empty) := rfl
  have hc := (claim1_amended rd0 raw9c30 _ rfl h).1 (by decide)
  exact ⟨rfl, hc.1, hc.2⟩

/-! ### Claims C6 and C7 -/

/-- Validation failures propagate out of the primary decode. -/
theorem primary_none_of_invalid (rd : RefDate) (m : RawMatch)
    (hbad : 60 ≤ (decodeHourMinute m).2 ∨ 24 < (decodeHourMinute m).1) :
    extractPrimaryTimeComponents rd m = none := by
  have h1 : primaryHourMeridiem m = none := by
    unfold primaryHourMeridiem
    dsimp only
    rw [if_pos hbad]
  unfold extractPrimaryTimeComponents
  rw [h1]
  rfl

/-- C6: the hour/minute decode step takes the hour from digit-group 1 and the
minute from digit-group 2; with group 2 absent and hour above 100 the packed
HHMM split applies ("1530" decodes to 15:30); the decode fails whenever the
stepped minute is 60 or more or the stepped hour is above 24, so minute
digits "60" or hour digits "25" always fail, whatever else is present. -/
theorem claim6_hour_minute_step :
    (∀ m mv, m.minuteG = some mv → decodeHourMinute m = (m.hourG, mv)) ∧
    (∀ m, m.minuteG = none → 100 < m.hourG →
      decodeHourMinute m = (m.hourG / 100, m.hourG % 100)) ∧
    (∀ m, m.minuteG = none → m.hourG ≤ 100 →
      decodeHourMinute m = (m.hourG, 0)) ∧
    (∀ rd m, 60 ≤ (decodeHourMinute m).2 ∨ 24 < (decodeHourMinute m).1 →
      extractPrimaryTimeComponents rd m = none) ∧
    (∀ rd m c, extractPrimaryTimeComponents rd m = some c →
      c.get .minute = some ((decodeHourMinute m).2 : Int)) ∧
    (∀ rd m, m.minuteG = some 60 → extractPrimaryTimeComponents rd m = none) ∧
    (∀ rd m, m.hourG = 25 → extractPrimaryTimeComponents rd m = none) ∧
    (extractPrimaryTimeComponents rd0 raw1530).map
      (fun c => (c.get .hour, c.get .minute)) = some (some 15, some 30) := by
  refine ⟨?_, ?_, ?_, primary_none_of_invalid, ?_, ?_, ?_, rfl⟩
  · intro m mv hm
    unfold decodeHourMinute
    rw [hm]
  · intro m hm hgt
    unfold decodeHourMinute
    rw [hm]
    dsimp only
    rw [if_pos hgt]
  · intro m hm hle
    unfold decodeHourMinute
    rw [hm]
    dsimp only
    rw [if_neg (by omega)]
  · intro rd m c h
    obtain ⟨hm1, h1, hhour, hhc, hmin, hmc, hrest⟩ := primary_fields rd m c h
    exact hmin
  · intro rd m hm
    refine primary_none_of_invalid rd m (Or.inl ?_)
    unfold decodeHourMinute
    rw [hm]
  · intro rd m hm
    refine primary_none_of_invalid rd m (Or.inr ?_)
    unfold decodeHourMinute
    cases hmin : m.minuteG with
    | some mv =>
      dsimp only
      omega
    | none =>
      dsimp only
      rw [hm]
      decide

/-- C6 witness: the failure clauses at minute digits "60", and the packed
split clause at "1530". -/
theorem claim6_witness :
    extractPrimaryTimeComponents rd0 raw8c60 = none ∧
    decodeHourMinute raw1530 = (15, 30) := by
  exact ⟨claim6_hour_minute_step.2.2.2.2.2.1 rd0 raw8c60 rfl,
    claim6_hour_minute_step.2.1 raw1530 rfl (by decide)⟩

/-- C7: with an AM/PM token present the primary decode fails when the decoded
hour is above 12 ("13pm" fails); otherwise an "a" token gives CERTAIN AM with
hour 12 mapped to 0 ("12am" gives hour 0) and a "p" token gives CERTAIN PM
with an hour other than 12 gaining 12 ("12pm" keeps hour 12). -/
theorem claim7_token_rules :
    (∀ rd m, m.ampmG.isSome → 12 < (decodeHourMinute m).1 →
      extractPrimaryTimeComponents rd m = none) ∧
    (∀ rd m c, extractPrimaryTimeComponents rd m = some c →
      m.ampmG = some AmPm.a →
      c.get .meridiem = some Meridiem.AM ∧ c.isCertain .meridiem = true ∧
      ((decodeHourMinute m).1 = 12 → c.get .hour = some 0) ∧
      ((decodeHourMinute m).1 ≠ 12 →
        c.get .hour = some ((decodeHourMinute m).1 : Int))) ∧
    (∀ rd m c, extractPrimaryTimeComponents rd m = some c →
      m.ampmG = some AmPm.p →
      c.get .meridiem = some Meridiem.PM ∧ c.isCertain .meridiem = true ∧
      ((decodeHourMinute m).1 = 12 → c.get .hour = some 12) ∧
      ((decodeHourMinute m).1 ≠ 12 →
        c.get .hour = some (((decodeHourMinute m).1 : Int) + 12))) ∧
    extractPrimaryTimeComponents rd0 raw13pm = none ∧
    (extractPrimaryTimeComponents rd0 raw12am).map
      (fun c => (c.get .hour, c.get .meridiem, c.isCertain .meridiem)) =
      some (some 0, some Meridiem.AM, true) ∧
    (extractPrimaryTimeComponents rd0 raw12pm).map
      (fun c => (c.get .hour, c.get .meridiem, c.isCertain .meridiem)) =
      some (some 12, some Meridiem.PM, true) := by
  refine ⟨?_, ?_, ?_, rfl, rfl, rfl⟩
  · intro rd m htok hgt
    obtain ⟨ap, hap⟩ := Option.isSome_iff_exists.mp htok
    have h1 : primaryHourMeridiem m = none := by
      unfold primaryHourMeridiem
      rw [hap]
      dsimp only
      by_cases hv : 60 ≤ (decodeHourMinute m).2 ∨ 24 < (decodeHourMinute m).1
      · rw [if_pos hv]
      · rw [if_neg hv, if_pos hgt]
    unfold extractPrimaryTimeComponents
    rw [h1]
    rfl
  · intro rd m c h htok
    obtain ⟨hm1, h1, hhour, hhc, hmin, hmc, hmers, hmern, hpres⟩ :=
      primary_fields rd m c h
    rw [primaryHourMeridiem_a m htok] at h1
    split at h1
    · exact absurd h1 (by simp)
    · split at h1
      · exact absurd h1 (by simp)
      · injection h1 with h1
        subst h1
        have hmer := hmers Meridiem.AM rfl
        refine ⟨hmer.1, hmer.2, ?_, ?_⟩
        · intro h12
          rw [hhour]
          dsimp only
          rw [if_pos h12]
          norm_num
        · intro h12
          rw [hhour]
          dsimp only
          rw [if_neg h12]
  · intro rd m c h htok
    obtain ⟨hm1, h1, hhour, hhc, hmin, hmc, hmers, hmern, hpres⟩ :=
      primary_fields rd m c h
    rw [primaryHourMeridiem_p m htok] at h1
    split at h1
    · exact absurd h1 (by simp)
    · split at h1
      · exact absurd h1 (by simp)
      · injection h1 with h1
        subst h1
        have hmer := hmers Meridiem.PM rfl
        refine ⟨hmer.1, hmer.2, ?_, ?_⟩
        · intro h12
          rw [hhour]
          dsimp only
          rw [if_neg (by omega), h12]
          norm_num
        · intro h12
          rw [hhour]
          dsimp only
          rw [if_pos h12]
          norm_num

/-- C7 witness: the token clauses at the concrete matches "13pm" and "12am". -/
theorem claim7_witness :
    extractPrimaryTimeComponents rd0 raw13pm = none ∧
    ((extractPrimaryTimeComponents rd0 raw12am).getD
      ParsingComponents.empty).get .hour = some 0 := by
  have h : extractPrimaryTimeComponents rd0 raw12am =
      some ((extractPrimaryTimeComponents rd0 raw12am).getD
        ParsingComponents.empty) := rfl
  refine ⟨claim7_token_rules.1 rd0 raw13pm (by decide) (by decide), ?_⟩
  exact (claim7_token_rules.2.1 rd0 raw12am _ h rfl).2.2.1 (by decide)

/-! ### Claim C9 -/

set_option maxHeartbeats 2000000 in
/-- C9: the two near-duplicate full decode routines agree: started from the
fresh factory components (the state `extract` hands to the decode), the dead
`extractStartTimeComponent` routine and `extractPrimaryTimeComponents` either
both fail or both succeed with identical start components — same values and
same certain/implied tags on every field. -/
theorem claim9_decode_equivalence (rd : RefDate) (m : RawMatch) (idx : Nat)
    (t : String) :
    extractStartTimeComponent ⟨idx, t, createParsingComponents rd, none⟩ m =
      (extractPrimaryTimeComponents rd m).map
        (fun c => ⟨idx, t, c, none⟩) := by
  obtain ⟨hG, mG, sG, msG, apG⟩ := m
  unfold extractStartTimeComponent extractPrimaryTimeComponents
    primaryHourMeridiem assignHourMinuteMeridiem msSecStep milliStep
    secondStep decodeHourMinute
  cases apG with
  | none =>
    cases mG <;> cases sG <;> cases msG <;>
      (repeat' (first | dsimp only [Option.bind, Option.map] | split_ifs)) <;>
      first | omega | rfl
  | some tok =>
    cases tok <;> cases mG <;> cases sG <;> cases msG <;>
      (repeat' (first | dsimp only [Option.bind, Option.map] | split_ifs)) <;>
      first | omega | rfl

/-! ### Lemmas about the end-decode blocks -/

theorem endTokenStep_preserves_e (s0 e2 : ParsingComponents) (hour : Nat)
    (ap : Option AmPm) (step : Nat × Int × ParsingComponents × ParsingComponents)
    (h : endTokenStep s0 e2 hour ap = some step) (f : Field) (hf : f ≠ .day) :
    step.2.2.1.get f = e2.get f ∧ step.2.2.1.isCertain f = e2.isCertain f := by
  unfold endTokenStep at h
  cases ap with
  | none =>
    injection h with h
    subst h
    exact ⟨rfl, rfl⟩
  | some tok =>
    dsimp only at h
    split at h
    · exact absurd h (by simp)
    · cases tok <;> dsimp only at h <;> injection h with h <;> subst h <;>
        dsimp only <;> (repeat' split) <;> simp [hf]

theorem endTokenStep_preserves_start (s0 e2 : ParsingComponents) (hour : Nat)
    (ap : Option AmPm) (step : Nat × Int × ParsingComponents × ParsingComponents)
    (h : endTokenStep s0 e2 hour ap = some step) (f : Field)
    (hf1 : f ≠ .meridiem) (hf2 : f ≠ .hour) :
    step.2.2.2.get f = s0.get f ∧ step.2.2.2.isCertain f = s0.isCertain f := by
  unfold endTokenStep at h
  cases ap with
  | none =>
    injection h with h
    subst h
    exact ⟨rfl, rfl⟩
  | some tok =>
    dsimp only at h
    split at h
    · exact absurd h (by simp)
    · cases tok <;> dsimp only at h <;> injection h with h <;> subst h <;>
        dsimp only <;> (repeat' split) <;> simp [hf1, hf2]

theorem endTokenStep_hour_le (s0 e2 : ParsingComponents) (hour : Nat)
    (ap : Option AmPm) (step : Nat × Int × ParsingComponents × ParsingComponents)
    (h : endTokenStep s0 e2 hour ap = some step) (hhour : hour ≤ 24) :
    step.1 ≤ 24 := by
  unfold endTokenStep at h
  cases ap with
  | none =>
    injection h with h
    subst h
    exact hhour
  | some tok =>
    dsimp only at h
    split at h
    · exact absurd h (by simp)
    · cases tok <;> dsimp only at h <;> injection h with h <;> subst h <;>
        dsimp only <;> split <;> omega

theorem endMeridiemInfer_preserves (e4 s1 : ParsingComponents) (h1 : Nat)
    (m1 : Int) (f : Field) (hf : f ≠ .meridiem) :
    (endMeridiemInfer e4 s1 h1 m1).get f = e4.get f ∧
    (endMeridiemInfer e4 s1 h1 m1).isCertain f = e4.isCertain f := by
  unfold endMeridiemInfer
  split
  · simp [hf]
  · split
    · simp [hf]
    · split <;> simp [hf]

theorem endRollover_preserves (e5 s1 : ParsingComponents) (f : Field)
    (hf : f ≠ .day) :
    (endRollover e5 s1).get f = e5.get f ∧
    (endRollover e5 s1).isCertain f = e5.isCertain f := by
  unfold endRollover
  split
  · simp [hf]
  · exact ⟨rfl, rfl⟩

/-- The successful end decode names its pieces: the end bag after the
millisecond/second block, the token-step data, and the final record. -/
theorem extractEndTimeComponent_inv (result : ParsingResult) (mt : String)
    (m : RawMatch) (r' : ParsingResult)
    (h : extractEndTimeComponent result mt m = some r') :
    ∃ e2 step, msSecStep result.start m = some e2 ∧
      ¬(60 ≤ (decodeHourMinute m).2 ∨ 24 < (decodeHourMinute m).1) ∧
      endTokenStep result.start e2 (decodeHourMinute m).1 m.ampmG = some step ∧
      r' = { result with
        text := result.text ++ mt, start := step.2.2.2,
        endc := some (endRollover
          (endMeridiemInfer
            ((step.2.2.1.assign .hour (step.1 : Int)).assign
              .minute ((decodeHourMinute m).2 : Int))
            step.2.2.2 step.1 step.2.1)
          step.2.2.2) } := by
  unfold extractEndTimeComponent at h
  rw [Option.bind_eq_some] at h
  obtain ⟨e2, h1, h2⟩ := h
  split at h2
  · exact absurd h2 (by simp)
  · rw [Option.bind_eq_some] at h2
    obtain ⟨step, h3, h4⟩ := h2
    injection h4 with h4
    exact ⟨e2, step, h1, by assumption, h3, h4.symm⟩

/-- A successful extraction is the start-only record, or that record extended
by the range routine. -/
theorem extract_inv (rd : RefDate) (idx : Nat) (t : String) (m : RawMatch)
    (follow : Option (String × RawMatch)) (r : ParsingResult)
    (h : extract rd idx t m follow = some r) :
    ∃ c, extractPrimaryTimeComponents rd m = some c ∧
      (r = ⟨idx, t, c, none⟩ ∨
        ∃ ftext fm, follow = some (ftext, fm) ∧ isTzOffsetLike ftext = false ∧
          extractEndTimeComponent ⟨idx, t, c, none⟩ ftext fm = some r) := by
  unfold extract at h
  split at h
  · exact absurd h (by simp)
  · rename_i c hp
    refine ⟨c, hp, ?_⟩
    split at h
    · injection h with h
      exact Or.inl h.symm
    · rename_i ftext fm
      split at h
      · injection h with h
        exact Or.inl h.symm
      · rename_i htz
        dsimp only at h
        split at h
        · injection h with h
          exact Or.inl h.symm
        · rename_i r' hr'
          injection h with h
          subst h
          exact Or.inr ⟨ftext, fm, rfl, by simpa using htz, hr'⟩

/-! ### Claim C5 -/

/-- C5: when the following match is a timezone-offset look-alike, or its
decode fails any validation, `extract` still returns exactly the start-only
result — same span, same start components, no end component; concretely,
"14:30-0500" keeps hour 14, minute 30 with no end. -/
theorem claim5_malformed_range (rd : RefDate) (idx : Nat) (t ftext : String)
    (m fm : RawMatch) (c : ParsingComponents)
    (hp : extractPrimaryTimeComponents rd m = some c)
    (hdrop : isTzOffsetLike ftext = true ∨
      extractEndTimeComponent ⟨idx, t, c, none⟩ ftext fm = none) :
    extract rd idx t m (some (ftext, fm)) = some ⟨idx, t, c, none⟩ ∧
    extract rd idx t m none = some ⟨idx, t, c, none⟩ ∧
    (extract rd0 0 "14:30" raw14c30 (some ("-0500", raw0500))).map
      (fun r => (r.start.get .hour, r.start.get .minute, r.endc.isSome)) =
      some (some 14, some 30, false) := by
  refine ⟨?_, ?_, rfl⟩
  · unfold extract
    rw [hp]
    dsimp only
    rcases hdrop with htz | hend
    · rw [if_pos htz]
    · by_cases htz : isTzOffsetLike ftext = true
      · rw [if_pos htz]
      · rw [if_neg htz, hend]
  · unfold extract
    rw [hp]

/-- C5 witness: the timezone guard at the concrete input "14:30-0500". -/
theorem claim5_witness :
    extract rd0 0 "14:30" raw14c30 (some ("-0500", raw0500)) =
      some ⟨0, "14:30", (extractPrimaryTimeComponents rd0 raw14c30).getD
        ParsingComponents.empty, none⟩ := by
  have hp : extractPrimaryTimeComponents rd0 raw14c30 =
      some ((extractPrimaryTimeComponents rd0 raw14c30).getD
        ParsingComponents.empty) := rfl
  exact (claim5_malformed_range rd0 0 "14:30" "-0500" raw14c30 raw0500 _ hp
    (Or.inl rfl)).1

/-! ### Claim C8 -/

/-- C8: every successful extraction returns start components whose day, month
and year are IMPLIED from the reference instant's calendar date; the
implication is seeded before hour/minute assignment and survives into the
returned result, through the range path included. -/
theorem claim8_implied_reference_date (rd : RefDate) (idx : Nat) (t : String)
    (m : RawMatch) (follow : Option (String × RawMatch)) (r : ParsingResult)
    (h : extract rd idx t m follow = some r) :
    r.start.get .day = some rd.day ∧ r.start.isCertain .day = false ∧
    r.start.get .month = some rd.month ∧ r.start.isCertain .month = false ∧
    r.start.get .year = some rd.year ∧ r.start.isCertain .year = false := by
  obtain ⟨c, hp, hcase⟩ := extract_inv rd idx t m follow r h
  obtain ⟨hm1, h1, hhour, hhc, hmin, hmc, hmers, hmern, hpres⟩ :=
    primary_fields rd m c hp
  have hday := hpres .day (by simp) (by simp) (by simp) (by simp) (by simp)
  have hmonth := hpres .month (by simp) (by simp) (by simp) (by simp) (by simp)
  have hyear := hpres .year (by simp) (by simp) (by simp) (by simp) (by simp)
  rw [createParsingComponents_get_day, createParsingComponents_isCertain] at hday
  rw [createParsingComponents_get_month, createParsingComponents_isCertain]
    at hmonth
  rw [createParsingComponents_get_year, createParsingComponents_isCertain]
    at hyear
  rcases hcase with hr | ⟨ftext, fm, hf, htz, hend⟩
  · subst hr
    exact ⟨hday.1, hday.2, hmonth.1, hmonth.2, hyear.1, hyear.2⟩
  · obtain ⟨e2, step, hms, hval, htok, hr⟩ :=
      extractEndTimeComponent_inv _ _ _ _ hend
    subst hr
    dsimp only
    have pday := endTokenStep_preserves_start _ _ _ _ _ htok .day
      (by simp) (by simp)
    have pmonth := endTokenStep_preserves_start _ _ _ _ _ htok .month
      (by simp) (by simp)
    have pyear := endTokenStep_preserves_start _ _ _ _ _ htok .year
      (by simp) (by simp)
    dsimp only at pday pmonth pyear
    rw [pday.1, pday.2, pmonth.1, pmonth.2, pyear.1, pyear.2]
    exact ⟨hday.1, hday.2, hmonth.1, hmonth.2, hyear.1, hyear.2⟩

/-- C8 witness: the implied reference date at the concrete extraction of
"10" (range-free). -/
theorem claim8_witness :
    ((extract rd0 0 "10" raw10 none).getD ⟨0, "", ParsingComponents.empty,
      none⟩).start.get .day = some rd0.day ∧
    ((extract rd0 0 "10" raw10 none).getD ⟨0, "", ParsingComponents.empty,
      none⟩).start.isCertain .day = false := by
  have h : extract rd0 0 "10" raw10 none =
      some ((extract rd0 0 "10" raw10 none).getD
        ⟨0, "", ParsingComponents.empty, none⟩) := rfl
  have hc := claim8_implied_reference_date rd0 0 "10" raw10 none _ h
  exact ⟨hc.1, hc.2.1⟩

/-! ### Claim C2 -/

/-- The amended range invariant on one components bag: hour in [0,24] (the
validation admits "24:00"), minute and second in [0,59], millisecond in
[0,999]. -/
def fieldBounds (c : ParsingComponents) : Prop :=
  (∀ v, c.get .hour = some v → 0 ≤ v ∧ v ≤ 24) ∧
  (∀ v, c.get .minute = some v → 0 ≤ v ∧ v ≤ 59) ∧
  (∀ v, c.get .second = some v → 0 ≤ v ∧ v ≤ 59) ∧
  (∀ v, c.get .millisecond = some v → 0 ≤ v ∧ v ≤ 999)

theorem primaryHourMeridiem_facts (m : RawMatch) (hm1 : Nat × Option Int)
    (h : primaryHourMeridiem m = some hm1) :
    (decodeHourMinute m).2 < 60 ∧ (decodeHourMinute m).1 ≤ 24 ∧ hm1.1 ≤ 24 ∧
    (hm1.2 = none → hm1.1 < 12 ∧ hm1.1 = (decodeHourMinute m).1) := by
  unfold primaryHourMeridiem at h
  dsimp only at h
  split at h
  · exact absurd h (by simp)
  · rename_i hval
    split at h
    · injection h with h
      subst h
      refine ⟨by omega, by omega, by dsimp only; omega, ?_⟩
      intro hnone
      dsimp only at hnone ⊢
      split at hnone
      · exact absurd hnone (by simp)
      · omega
    · rename_i ap hap
      split at h
      · exact absurd h (by simp)
      · rename_i hle
        split at h <;> injection h with h <;> subst h <;>
          refine ⟨by omega, by omega, by dsimp only; split <;> omega, ?_⟩ <;>
          (intro hnone; exact absurd hnone (by simp))

theorem primary_bounds (rd : RefDate) (m : RawMatch) (c : ParsingComponents)
    (h : extractPrimaryTimeComponents rd m = some c) :
    fieldBounds c ∧
    (c.isCertain .meridiem = false → ∀ v, c.get .hour = some v → v < 12) := by
  obtain ⟨hm1, h1, hhour, hhc, hmin, hmc, hmers, hmern, hpres⟩ :=
    primary_fields rd m c h
  obtain ⟨hmlt, hdle, hh1le, hnonef⟩ := primaryHourMeridiem_facts m hm1 h1
  obtain ⟨hseca, hsecb, hmsa, hmsb⟩ := primary_ms_sec rd m c h
  constructor
  · refine ⟨?_, ?_, ?_, ?_⟩
    · intro v hv
      rw [hhour] at hv
      injection hv with hv
      subst hv
      omega
    · intro v hv
      rw [hmin] at hv
      injection hv with hv
      subst hv
      omega
    · intro v hv
      cases hsg : m.secondG with
      | some s =>
        obtain ⟨hlt, hget, _⟩ := hseca s hsg
        rw [hget] at hv
        injection hv with hv
        subst hv
        omega
      | none =>
        rw [hsecb hsg] at hv
        exact absurd hv (by simp)
    · intro v hv
      cases hmg : m.milliG with
      | some ds =>
        obtain ⟨hlt, hget, _⟩ := hmsa ds hmg
        rw [hget] at hv
        injection hv with hv
        subst hv
        omega
      | none =>
        rw [hmsb hmg] at hv
        exact absurd hv (by simp)
  · intro hnc v hv
    cases h2 : hm1.2 with
    | some mv =>
      have := (hmers mv h2).2
      rw [hnc] at this
      exact absurd this (by simp)
    | none =>
      obtain ⟨hlt, _⟩ := hnonef h2
      rw [hhour] at hv
      injection hv with hv
      subst hv
      omega

theorem msSecStep_fieldBounds (c c' : ParsingComponents) (m : RawMatch)
    (h : msSecStep c m = some c') (hb : fieldBounds c) : fieldBounds c' := by
  obtain ⟨hbh, hbm, hbs, hbms⟩ := hb
  obtain ⟨hseca, hsecb⟩ := msSecStep_second c c' m h
  obtain ⟨hmsa, hmsb⟩ := msSecStep_milli c c' m h
  have hp := msSecStep_preserves c c' m h
  refine ⟨?_, ?_, ?_, ?_⟩
  · intro v hv
    rw [(hp .hour (by simp) (by simp)).1] at hv
    exact hbh v hv
  · intro v hv
    rw [(hp .minute (by simp) (by simp)).1] at hv
    exact hbm v hv
  · intro v hv
    cases hsg : m.secondG with
    | some s =>
      obtain ⟨hlt, hget, _⟩ := hseca s hsg
      rw [hget] at hv
      injection hv with hv
      subst hv
      omega
    | none =>
      rw [(hsecb hsg).1] at hv
      exact hbs v hv
  · intro v hv
    cases hmg : m.milliG with
    | some ds =>
      obtain ⟨hlt, hget, _⟩ := hmsa ds hmg
      rw [hget] at hv
      injection hv with hv
      subst hv
      omega
    | none =>
      rw [(hmsb hmg).1] at hv
      exact hbms v hv

theorem endTokenStep_start_hour (s0 e2 : ParsingComponents) (hour : Nat)
    (ap : Option AmPm)
    (step : Nat × Int × ParsingComponents × ParsingComponents)
    (h : endTokenStep s0 e2 hour ap = some step)
    (hb : ∀ v, s0.get .hour = some v → 0 ≤ v ∧ v ≤ 24)
    (hnc : s0.isCertain .meridiem = false → ∀ v, s0.get .hour = some v → v < 12) :
    ∀ v, step.2.2.2.get .hour = some v → 0 ≤ v ∧ v ≤ 24 := by
  unfold endTokenStep at h
  cases ap with
  | none =>
    injection h with h
    subst h
    exact hb
  | some tok =>
    dsimp only at h
    split at h
    · exact absurd h (by simp)
    · have key : ∀ mer1 : Int,
        ∀ v, (if s0.isCertain .meridiem then s0
          else if mer1 = Meridiem.AM then
            (if (s0.imply .meridiem Meridiem.AM).getNum .hour = 12 then
              (s0.imply .meridiem Meridiem.AM).assign .hour 0
             else s0.imply .meridiem Meridiem.AM)
          else
            (if (s0.imply .meridiem Meridiem.PM).getNum .hour ≠ 12 then
              (s0.imply .meridiem Meridiem.PM).assign .hour
                ((s0.imply .meridiem Meridiem.PM).getNum .hour + 12)
             else s0.imply .meridiem Meridiem.PM)).get .hour = some v →
          0 ≤ v ∧ v ≤ 24 := by
        intro mer1 v hv
        split at hv
        · exact hb v hv
        · rename_i hcert
          have hcf : s0.isCertain .meridiem = false := by
            simpa using hcert
          split at hv
          · split at hv
            · rw [ParsingComponents.get_assign_self] at hv
              injection hv with hv
              omega
            · rw [ParsingComponents.get_imply_of_ne _ _ _ _ (by simp)] at hv
              exact hb v hv
          · split at hv
            · rw [ParsingComponents.get_assign_self] at hv
              injection hv with hv
              subst hv
              unfold ParsingComponents.getNum
              rw [ParsingComponents.get_imply_of_ne _ _ _ _ (by simp)]
              cases hg : s0.get .hour with
              | some w =>
                have := hnc hcf w hg
                have := hb w hg
                simp [hg]
                omega
              | none => simp [hg]
            · rw [ParsingComponents.get_imply_of_ne _ _ _ _ (by simp)] at hv
              exact hb v hv
      cases tok <;> dsimp only at h <;> injection h with h <;> subst h <;>
        dsimp only
      · exact key Meridiem.AM
      · exact key Meridiem.PM

/-- C2 counterexample: "24:00" extracts successfully with start hour 24,
outside the claimed range [0,23]. -/
theorem claim2_counterexample :
    (extract rd0 0 "24:00" raw24c00 none).map (fun r => r.start.get .hour) =
      some (some 24) ∧ ¬((24 : Int) ≤ 23) := by
  exact ⟨rfl, by decide⟩

/-- C2 (amended): every components bag attached to a returned result — start
and end, after any range reconciliation — has hour in [0,24] (the validation
`hour > 24` admits "24:00"), minute and second in [0,59] and millisecond in
[0,999]. -/
theorem claim2_amended (rd : RefDate) (idx : Nat) (t : String) (m : RawMatch)
    (follow : Option (String × RawMatch)) (r : ParsingResult)
    (h : extract rd idx t m follow = some r) :
    fieldBounds r.start ∧ (∀ e, r.endc = some e → fieldBounds e) := by
  obtain ⟨c, hp, hcase⟩ := extract_inv rd idx t m follow r h
  obtain ⟨hbc, hncc⟩ := primary_bounds rd m c hp
  rcases hcase with hr | ⟨ftext, fm, hf, htz, hend⟩
  · subst hr
    refine ⟨hbc, ?_⟩
    intro e he
    exact absurd he (by simp)
  · obtain ⟨e2, step, hms, hval, htok, hr⟩ :=
      extractEndTimeComponent_inv _ _ _ _ hend
    subst hr
    dsimp only at htok hms ⊢
    obtain ⟨hbh, hbm, hbs, hbms⟩ := hbc
    constructor
    · refine ⟨endTokenStep_start_hour _ _ _ _ _ htok hbh hncc, ?_, ?_, ?_⟩
      · intro v hv
        rw [(endTokenStep_preserves_start _ _ _ _ _ htok .minute
          (by simp) (by simp)).1] at hv
        exact hbm v hv
      · intro v hv
        rw [(endTokenStep_preserves_start _ _ _ _ _ htok .second
          (by simp) (by simp)).1] at hv
        exact hbs v hv
      · intro v hv
        rw [(endTokenStep_preserves_start _ _ _ _ _ htok .millisecond
          (by simp) (by simp)).1] at hv
        exact hbms v hv
    · intro e he
      injection he with he
      subst he
      have he2b : fieldBounds e2 :=
        msSecStep_fieldBounds _ _ _ hms ⟨hbh, hbm, hbs, hbms⟩
      obtain ⟨he2h, he2m, he2s, he2ms⟩ := he2b
      have hrolp := endRollover_preserves
        (endMeridiemInfer
          ((step.2.2.1.assign .hour (step.1 : Int)).assign
            .minute ((decodeHourMinute fm).2 : Int))
          step.2.2.2 step.1 step.2.1) step.2.2.2
      have hinfp := endMeridiemInfer_preserves
        ((step.2.2.1.assign .hour (step.1 : Int)).assign
          .minute ((decodeHourMinute fm).2 : Int))
        step.2.2.2 step.1 step.2.1
      refine ⟨?_, ?_, ?_, ?_⟩
      · intro v hv
        rw [(hrolp .hour (by simp)).1, (hinfp .hour (by simp)).1,
          ParsingComponents.get_assign_of_ne _ _ _ _ (by simp),
          ParsingComponents.get_assign_self] at hv
        injection hv with hv
        subst hv
        have := endTokenStep_hour_le _ _ _ _ _ htok (by omega)
        omega
      · intro v hv
        rw [(hrolp .minute (by simp)).1, (hinfp .minute (by simp)).1,
          ParsingComponents.get_assign_self] at hv
        injection hv with hv
        subst hv
        omega
      · intro v hv
        rw [(hrolp .second (by simp)).1, (hinfp .second (by simp)).1,
          ParsingComponents.get_assign_of_ne _ _ _ _ (by simp),
          ParsingComponents.get_assign_of_ne _ _ _ _ (by simp),
          (endTokenStep_preserves_e _ _ _ _ _ htok .second (by simp)).1] at hv
        exact he2s v hv
      · intro v hv
        rw [(hrolp .millisecond (by simp)).1, (hinfp .millisecond (by simp)).1,
          ParsingComponents.get_assign_of_ne _ _ _ _ (by simp),
          ParsingComponents.get_assign_of_ne _ _ _ _ (by simp),
          (endTokenStep_preserves_e _ _ _ _ _ htok .millisecond (by simp)).1]
          at hv
        exact he2ms v hv

/-- C2 witness: the amended bounds at the concrete extraction of "15:30". -/
theorem claim2_witness :
    ((extract rd0 0 "15:30" raw15c30 none).getD
      ⟨0, "", ParsingComponents.empty, none⟩).start.get .hour = some 15 ∧
    (0 : Int) ≤ 15 ∧ (15 : Int) ≤ 24 := by
  have h : extract rd0 0 "15:30" raw15c30 none =
      some ((extract rd0 0 "15:30" raw15c30 none).getD
        ⟨0, "", ParsingComponents.empty, none⟩) := rfl
  have hb := (claim2_amended rd0 0 "15:30" raw15c30 none _ h).1
  exact ⟨rfl, hb.1 15 rfl⟩

/-! ### The no-token range path -/

/-- In a successful range decode whose following match has no AM/PM token,
the start is untouched and the end's meridiem follows the source's actual
rule: decoded hour at least 12 assigns CERTAIN PM; otherwise the certain-PM
start with a larger hour implies AM; otherwise the meridiem inherited from
the start is kept, tag included. -/
theorem end_no_token (result : ParsingResult) (mt : String) (m : RawMatch)
    (r' : ParsingResult) (h : extractEndTimeComponent result mt m = some r')
    (htok : m.ampmG = none) :
    r'.start = result.start ∧
    ∀ e, r'.endc = some e →
      (12 ≤ (decodeHourMinute m).1 →
        e.get .meridiem = some Meridiem.PM ∧ e.isCertain .meridiem = true) ∧
      ((decodeHourMinute m).1 < 12 →
        ((result.start.isCertain .meridiem = true ∧
          result.start.getNum .meridiem = Meridiem.PM ∧
          result.start.getNum .hour > (((decodeHourMinute m).1 : Nat) : Int)) →
          e.get .meridiem = some Meridiem.AM ∧ e.isCertain .meridiem = false) ∧
        (¬(result.start.isCertain .meridiem = true ∧
          result.start.getNum .meridiem = Meridiem.PM ∧
          result.start.getNum .hour > (((decodeHourMinute m).1 : Nat) : Int)) →
          e.get .meridiem = result.start.get .meridiem ∧
          e.isCertain .meridiem = result.start.isCertain .meridiem)) := by
  obtain ⟨e2, step, hms, hval, htk, hr⟩ :=
    extractEndTimeComponent_inv _ _ _ _ h
  unfold endTokenStep at htk
  rw [htok] at htk
  dsimp only at htk
  injection htk with htk
  subst htk
  subst hr
  dsimp only
  refine ⟨rfl, ?_⟩
  intro e he
  injection he with he
  subst he
  have hmer4 :
      (((e2.assign .hour ((decodeHourMinute m).1 : Int)).assign
        .minute ((decodeHourMinute m).2 : Int)).get .meridiem =
          result.start.get .meridiem) ∧
      (((e2.assign .hour ((decodeHourMinute m).1 : Int)).assign
        .minute ((decodeHourMinute m).2 : Int)).isCertain .meridiem =
          result.start.isCertain .meridiem) := by
    rw [ParsingComponents.get_assign_of_ne _ _ _ _ (by simp),
      ParsingComponents.get_assign_of_ne _ _ _ _ (by simp),
      ParsingComponents.isCertain_assign_of_ne _ _ _ _ (by simp),
      ParsingComponents.isCertain_assign_of_ne _ _ _ _ (by simp)]
    exact ⟨(msSecStep_preserves _ _ _ hms .meridiem (by simp) (by simp)).1,
      (msSecStep_preserves _ _ _ hms .meridiem (by simp) (by simp)).2⟩
  constructor
  · intro h12
    rw [if_pos h12]
    unfold endMeridiemInfer
    rw [if_pos (by unfold Meridiem.PM; omega)]
    rw [(endRollover_preserves _ _ .meridiem (by simp)).1,
      (endRollover_preserves _ _ .meridiem (by simp)).2]
    simp
  · intro h12
    rw [if_neg (by omega)]
    unfold endMeridiemInfer
    rw [if_neg (by omega)]
    constructor
    · intro hcond
      rw [if_pos hcond]
      rw [(endRollover_preserves _ _ .meridiem (by simp)).1,
        (endRollover_preserves _ _ .meridiem (by simp)).2]
      have hdel : ((((e2.assign .hour ((decodeHourMinute m).1 : Int)).assign
          .minute ((decodeHourMinute m).2 : Int)).delete
            .meridiem).isCertain .meridiem) = false := by
        simp
      exact ⟨by
        rw [ParsingComponents.get_imply_self_of_not_certain _ _ _ hdel], by
        rw [ParsingComponents.isCertain_imply]
        exact hdel⟩
    · intro hcond
      rw [if_neg hcond, if_neg (by omega)]
      rw [(endRollover_preserves _ _ .meridiem (by simp)).1,
        (endRollover_preserves _ _ .meridiem (by simp)).2]
      exact hmer4

/-- In a successful range decode whose following match has an AM/PM token
and whose start meridiem is not certain, the token's semantics propagate
backward into the start. -/
theorem end_token_backprop (result : ParsingResult) (mt : String)
    (m : RawMatch) (r' : ParsingResult) (ap : AmPm)
    (h : extractEndTimeComponent result mt m = some r')
    (htok : m.ampmG = some ap)
    (hnc : result.start.isCertain .meridiem = false) :
    (ap = AmPm.a →
      r'.start.get .meridiem = some Meridiem.AM ∧
      r'.start.isCertain .meridiem = false ∧
      (result.start.getNum .hour = 12 → r'.start.get .hour = some 0) ∧
      (result.start.getNum .hour ≠ 12 →
        r'.start.get .hour = result.start.get .hour)) ∧
    (ap = AmPm.p →
      r'.start.get .meridiem = some Meridiem.PM ∧
      r'.start.isCertain .meridiem = false ∧
      (result.start.getNum .hour ≠ 12 →
        r'.start.get .hour = some (result.start.getNum .hour + 12)) ∧
      (result.start.getNum .hour = 12 →
        r'.start.get .hour = result.start.get .hour)) := by
  obtain ⟨e2, step, hms, hval, htk, hr⟩ :=
    extractEndTimeComponent_inv _ _ _ _ h
  subst hr
  dsimp only
  unfold endTokenStep at htk
  rw [htok] at htk
  dsimp only at htk
  split at htk
  · exact absurd htk (by simp)
  · have hgethour : ∀ mv : Int,
        (result.start.imply .meridiem mv).getNum .hour =
          result.start.getNum .hour := by
      intro mv
      unfold ParsingComponents.getNum
      rw [ParsingComponents.get_imply_of_ne _ _ _ _ (by simp)]
    cases ap <;> dsimp only at htk <;> injection htk with htk <;>
      subst htk <;> dsimp only
    · refine ⟨?_, by intro hpa; cases hpa⟩
      intro _
      rw [if_neg (by simp [hnc]), if_pos rfl]
      refine ⟨?_, ?_, ?_, ?_⟩
      · split
        · rw [ParsingComponents.get_assign_of_ne _ _ _ _ (by simp),
            ParsingComponents.get_imply_self_of_not_certain _ _ _ hnc]
        · rw [ParsingComponents.get_imply_self_of_not_certain _ _ _ hnc]
      · split
        · rw [ParsingComponents.isCertain_assign_of_ne _ _ _ _ (by simp),
            ParsingComponents.isCertain_imply]
          exact hnc
        · rw [ParsingComponents.isCertain_imply]
          exact hnc
      · intro h12
        rw [if_pos (by rw [hgethour]; exact h12)]
        rw [ParsingComponents.get_assign_self]
      · intro h12
        rw [if_neg (by rw [hgethour]; exact h12)]
        rw [ParsingComponents.get_imply_of_ne _ _ _ _ (by simp)]
    · refine ⟨(by intro hpa; cases hpa), ?_⟩
      intro _
      rw [if_neg (by simp [hnc]),
        if_neg (by unfold Meridiem.PM Meridiem.AM; omega)]
      refine ⟨?_, ?_, ?_, ?_⟩
      · split
        · rw [ParsingComponents.get_assign_of_ne _ _ _ _ (by simp),
            ParsingComponents.get_imply_self_of_not_certain _ _ _ hnc]
        · rw [ParsingComponents.get_imply_self_of_not_certain _ _ _ hnc]
      · split
        · rw [ParsingComponents.isCertain_assign_of_ne _ _ _ _ (by simp),
            ParsingComponents.isCertain_imply]
          exact hnc
        · rw [ParsingComponents.isCertain_imply]
          exact hnc
      · intro h12
        rw [if_pos (by rw [hgethour]; exact h12)]
        rw [ParsingComponents.get_assign_self, hgethour]
      · intro h12
        rw [if_neg (by rw [hgethour]; simpa using h12)]
        rw [ParsingComponents.get_imply_of_ne _ _ _ _ (by simp)]

/-! ### Claim C3 -/

/-- C3 counterexample: in "10:00-13:00" the end match has no token and end
hour 13 exceeds 12, so the claim predicts the end's meridiem is inferred as
IMPLIED PM; the code instead assigns PM as CERTAIN (the provisional PM from
`hour >= 12` is assigned, and the claimed inference branch never runs). -/
theorem claim3_counterexample :
    raw13c00.ampmG = none ∧
    (extract rd0 0 "10:00" raw10c00 (some ("-13:00", raw13c00))).map
      (fun r => r.endc.map (fun e => (e.get .meridiem, e.isCertain .meridiem))) =
      some (some (some Meridiem.PM, true)) := by
  exact ⟨rfl, rfl⟩

/-- C3 (amended): the range meridiem reconciliation follows the source's
two-case rule.  With an explicit token and an only-IMPLIED start meridiem,
the token propagates backward (AM: start becomes implied AM, hour 12
becoming 0; PM: start becomes implied PM, hour not 12 gaining 12; so
"10-11pm" yields start hour 22 and end hour 23).  With no token: an end
decoded hour of 12 or more gets PM assigned as CERTAIN (not implied, and
taking precedence over both claimed inference cases); otherwise a CERTAIN-PM
start with start hour above the end hour makes the end implied AM; otherwise
the end keeps the meridiem inherited from the start. -/
theorem claim3_amended (result : ParsingResult) (mt : String) (m : RawMatch)
    (r' : ParsingResult) (h : extractEndTimeComponent result mt m = some r') :
    (∀ ap, m.ampmG = some ap → result.start.isCertain .meridiem = false →
      (ap = AmPm.a →
        r'.start.get .meridiem = some Meridiem.AM ∧
        r'.start.isCertain .meridiem = false ∧
        (result.start.getNum .hour = 12 → r'.start.get .hour = some 0) ∧
        (result.start.getNum .hour ≠ 12 →
          r'.start.get .hour = result.start.get .hour)) ∧
      (ap = AmPm.p →
        r'.start.get .meridiem = some Meridiem.PM ∧
        r'.start.isCertain .meridiem = false ∧
        (result.start.getNum .hour ≠ 12 →
          r'.start.get .hour = some (result.start.getNum .hour + 12)) ∧
        (result.start.getNum .hour = 12 →
          r'.start.get .hour = result.start.get .hour))) ∧
    (m.ampmG = none → ∀ e, r'.endc = some e →
      (12 ≤ (decodeHourMinute m).1 →
        e.get .meridiem = some Meridiem.PM ∧ e.isCertain .meridiem = true) ∧
      ((decodeHourMinute m).1 < 12 →
        ((result.start.isCertain .meridiem = true ∧
          result.start.getNum .meridiem = Meridiem.PM ∧
          result.start.getNum .hour > (((decodeHourMinute m).1 : Nat) : Int)) →
          e.get .meridiem = some Meridiem.AM ∧ e.isCertain .meridiem = false) ∧
        (¬(result.start.isCertain .meridiem = true ∧
          result.start.getNum .meridiem = Meridiem.PM ∧
          result.start.getNum .hour > (((decodeHourMinute m).1 : Nat) : Int)) →
          e.get .meridiem = result.start.get .meridiem ∧
          e.isCertain .meridiem = result.start.isCertain .meridiem))) ∧
    (extract rd0 0 "10" raw10 (some ("-11pm", raw11pm))).map
      (fun r => (r.start.get .hour, r.start.get .meridiem,
        r.endc.map (fun e => e.get .hour))) =
      some (some 22, some Meridiem.PM, some (some 23)) := by
  refine ⟨?_, ?_, rfl⟩
  · intro ap htok hnc
    exact end_token_backprop result mt m r' ap h htok hnc
  · intro htok
    exact (end_no_token result mt m r' h htok).2

/-- C3 witness: the backward-propagation clause at the range "10-11pm". -/
theorem claim3_witness :
    ((extractEndTimeComponent ⟨0, "10",
      (extractPrimaryTimeComponents rd0 raw10).getD ParsingComponents.empty,
      none⟩ "-11pm" raw11pm).getD ⟨0, "", ParsingComponents.empty,
      none⟩).start.get .hour = some 22 := by
  have h : extractEndTimeComponent ⟨0, "10",
      (extractPrimaryTimeComponents rd0 raw10).getD ParsingComponents.empty,
      none⟩ "-11pm" raw11pm =
      some ((extractEndTimeComponent ⟨0, "10",
        (extractPrimaryTimeComponents rd0 raw10).getD ParsingComponents.empty,
        none⟩ "-11pm" raw11pm).getD ⟨0, "", ParsingComponents.empty, none⟩) :=
    rfl
  have hc := ((claim3_amended _ _ _ _ h).1 AmPm.p rfl rfl).2 rfl
  have h22 := hc.2.2.1 (by decide)
  rw [h22]
  rfl

/-! ### Claim C10 -/

/-- C10 counterexample: in "5:00-12:00" the following match has no token,
the start's meridiem is only implied AM so the certain-PM inference cannot
fire, and end hour is 12 (not above 12); the claim then says the end keeps
the start's meridiem, but the code assigns CERTAIN PM to the end. -/
theorem claim10_counterexample :
    raw12c00.ampmG = none ∧
    (extract rd0 0 "5:00" raw5c00 (some ("-12:00", raw12c00))).map
      (fun r => (r.start.get .meridiem, r.start.isCertain .meridiem,
        r.endc.map (fun e => (e.get .meridiem, e.isCertain .meridiem)))) =
      some (some Meridiem.AM, false, some (some Meridiem.PM, true)) := by
  exact ⟨rfl, rfl⟩

/-- C10 (amended): the end components begin as a value-copy of the start:
with no seconds or fractional group the end inherits the start's second and
millisecond values and tags; with no AM/PM token the end keeps the start's
meridiem (value and tag) only when the decoded end hour is below 12 and the
certain-PM-start inference does not fire — a decoded end hour of 12 or more
instead overwrites the inherited meridiem with CERTAIN PM. -/
theorem claim10_amended (result : ParsingResult) (mt : String) (m : RawMatch)
    (r' : ParsingResult) (h : extractEndTimeComponent result mt m = some r') :
    ∀ e, r'.endc = some e →
      (m.milliG = none →
        e.get .millisecond = result.start.get .millisecond ∧
        e.isCertain .millisecond = result.start.isCertain .millisecond) ∧
      (m.secondG = none →
        e.get .second = result.start.get .second ∧
        e.isCertain .second = result.start.isCertain .second) ∧
      (m.ampmG = none → (decodeHourMinute m).1 < 12 →
        ¬(result.start.isCertain .meridiem = true ∧
          result.start.getNum .meridiem = Meridiem.PM ∧
          result.start.getNum .hour > (((decodeHourMinute m).1 : Nat) : Int)) →
        e.get .meridiem = result.start.get .meridiem ∧
        e.isCertain .meridiem = result.start.isCertain .meridiem) := by
  intro e he
  obtain ⟨e2, step, hms, hval, htk, hr⟩ :=
    extractEndTimeComponent_inv _ _ _ _ h
  have hre : r'.endc = some (endRollover
      (endMeridiemInfer
        ((step.2.2.1.assign .hour (step.1 : Int)).assign
          .minute ((decodeHourMinute m).2 : Int))
        step.2.2.2 step.1 step.2.1)
      step.2.2.2) := by
    rw [hr]
  rw [hre] at he
  injection he with he
  subst he
  refine ⟨?_, ?_, ?_⟩
  · intro hmg
    rw [(endRollover_preserves _ _ .millisecond (by simp)).1,
      (endRollover_preserves _ _ .millisecond (by simp)).2,
      (endMeridiemInfer_preserves _ _ _ _ .millisecond (by simp)).1,
      (endMeridiemInfer_preserves _ _ _ _ .millisecond (by simp)).2,
      ParsingComponents.get_assign_of_ne _ _ _ _ (by simp),
      ParsingComponents.get_assign_of_ne _ _ _ _ (by simp),
      ParsingComponents.isCertain_assign_of_ne _ _ _ _ (by simp),
      ParsingComponents.isCertain_assign_of_ne _ _ _ _ (by simp),
      (endTokenStep_preserves_e _ _ _ _ _ htk .millisecond (by simp)).1,
      (endTokenStep_preserves_e _ _ _ _ _ htk .millisecond (by simp)).2]
    exact (msSecStep_milli _ _ _ hms).2 hmg
  · intro hsg
    rw [(endRollover_preserves _ _ .second (by simp)).1,
      (endRollover_preserves _ _ .second (by simp)).2,
      (endMeridiemInfer_preserves _ _ _ _ .second (by simp)).1,
      (endMeridiemInfer_preserves _ _ _ _ .second (by simp)).2,
      ParsingComponents.get_assign_of_ne _ _ _ _ (by simp),
      ParsingComponents.get_assign_of_ne _ _ _ _ (by simp),
      ParsingComponents.isCertain_assign_of_ne _ _ _ _ (by simp),
      ParsingComponents.isCertain_assign_of_ne _ _ _ _ (by simp),
      (endTokenStep_preserves_e _ _ _ _ _ htk .second (by simp)).1,
      (endTokenStep_preserves_e _ _ _ _ _ htk .second (by simp)).2]
    exact (msSecStep_second _ _ _ hms).2 hsg
  · intro htok h12 hcond
    have := ((end_no_token result mt m r' h htok).2 _ hre).2 h12
    exact this.2 hcond

/-- C10 witness: the frame clauses at the range "10-11pm" (no seconds or
fractional group in the following match). -/
theorem claim10_witness :
    ((extractEndTimeComponent ⟨0, "10",
      (extractPrimaryTimeComponents rd0 raw10).getD ParsingComponents.empty,
      none⟩ "-11pm" raw11pm).getD ⟨0, "", ParsingComponents.empty,
      none⟩).endc.map (fun e => e.get .second) = some none := by
  have h : extractEndTimeComponent ⟨0, "10",
      (extractPrimaryTimeComponents rd0 raw10).getD ParsingComponents.empty,
      none⟩ "-11pm" raw11pm =
      some ((extractEndTimeComponent ⟨0, "10",
        (extractPrimaryTimeComponents rd0 raw10).getD ParsingComponents.empty,
        none⟩ "-11pm" raw11pm).getD ⟨0, "", ParsingComponents.empty, none⟩) :=
    rfl
  have he : ((extractEndTimeComponent ⟨0, "10",
      (extractPrimaryTimeComponents rd0 raw10).getD ParsingComponents.empty,
      none⟩ "-11pm" raw11pm).getD ⟨0, "", ParsingComponents.empty,
      none⟩).endc = some (((extractEndTimeComponent ⟨0, "10",
      (extractPrimaryTimeComponents rd0 raw10).getD ParsingComponents.empty,
      none⟩ "-11pm" raw11pm).getD ⟨0, "", ParsingComponents.empty,
      none⟩).endc.getD ParsingComponents.empty) := rfl
  have hc := (claim10_amended _ _ _ _ h _ he).2.1 rfl
  rw [he]
  dsimp only [Option.map]
  rw [hc.1]
  rfl

/-! ### Claim C4 -/

/-- The end bag's day after the token block: the AM token with decoded hour
12 implies it one forward (when not certain); every other case leaves it. -/
theorem endTokenStep_day (s0 e2 : ParsingComponents) (hour : Nat)
    (ap : Option AmPm)
    (step : Nat × Int × ParsingComponents × ParsingComponents)
    (h : endTokenStep s0 e2 hour ap = some step)
    (hd : e2.isCertain .day = false) :
    step.2.2.1.isCertain .day = false ∧
    ((ap = some AmPm.a ∧ hour = 12) →
      step.2.2.1.get .day = some (e2.getNum .day + 1)) ∧
    (¬(ap = some AmPm.a ∧ hour = 12) → step.2.2.1.get .day = e2.get .day) := by
  unfold endTokenStep at h
  cases ap with
  | none =>
    injection h with h
    subst h
    exact ⟨hd, (by intro hc; exact absurd hc.1 (by simp)), fun _ => rfl⟩
  | some tok =>
    dsimp only at h
    split at h
    · exact absurd h (by simp)
    · cases tok <;> dsimp only at h <;> injection h with h <;> subst h <;>
        dsimp only
      · by_cases h12 : hour = 12
        · rw [if_pos h12, if_neg (by simp [hd])]
          refine ⟨by rw [ParsingComponents.isCertain_imply]; exact hd, ?_, ?_⟩
          · intro _
            rw [ParsingComponents.get_imply_self_of_not_certain _ _ _ hd]
          · intro hc
            exact absurd ⟨rfl, h12⟩ hc
        · rw [if_neg h12]
          exact ⟨hd, (by intro hc; exact absurd hc.2 h12), fun _ => rfl⟩
      · exact ⟨hd, (by intro hc; exact absurd hc.1 (by simp)), fun _ => rfl⟩

/-- C4 counterexample: in "12am-12am" the end's time-of-day fields equal the
start's (both midnight), so the end's instant computed on the start's day is
not strictly before the start's instant, and the claim says the end keeps the
start's day; the code instead returns end day = start day + 1 (the AM-token
hour-12 branch implies the day forward before the rollover comparison). -/
theorem claim4_counterexample :
    (extract rd0 0 "12am" raw12am (some ("-12am", raw12am))).map
      (fun r => (r.start.get .day, r.start.get .hour, r.start.get .minute,
        r.start.get .second, r.start.get .millisecond,
        r.endc.map (fun e => (e.get .day, e.get .hour, e.get .minute,
          e.get .second, e.get .millisecond)))) =
      some (some 10, some 0, some 0, none, none,
        some (some 11, some 0, some 0, none, none)) := by
  rfl

/-- C4 (amended): in a successful range decode with a not-yet-certain day,
the end's final day is the start's day, advanced once by the AM-token
hour-12 (midnight) branch when it fires, and advanced once more exactly when
the end's instant on that advanced day is strictly before the start's
instant.  When the midnight branch does not fire this is precisely the
claimed rule; when it fires the day is advanced even though the comparison
is made against the already-advanced day. -/
theorem claim4_amended (result : ParsingResult) (mt : String) (m : RawMatch)
    (r' : ParsingResult) (h : extractEndTimeComponent result mt m = some r')
    (hdnc : result.start.isCertain .day = false) :
    r'.start.getNum .day = result.start.getNum .day ∧
    ∀ e, r'.endc = some e →
      e.getNum .day =
        (if m.ampmG = some AmPm.a ∧ (decodeHourMinute m).1 = 12 then
          result.start.getNum .day + 1 else result.start.getNum .day) +
        (if (if m.ampmG = some AmPm.a ∧ (decodeHourMinute m).1 = 12 then
              result.start.getNum .day + 1 else result.start.getNum .day) *
              86400000 + e.getNum .hour * 3600000 +
              e.getNum .minute * 60000 + e.getNum .second * 1000 +
              e.getNum .millisecond <
            result.start.getNum .day * 86400000 +
              r'.start.getNum .hour * 3600000 +
              r'.start.getNum .minute * 60000 +
              r'.start.getNum .second * 1000 +
              r'.start.getNum .millisecond
          then 1 else 0) := by
  obtain ⟨e2, step, hms, hval, htk, hr⟩ :=
    extractEndTimeComponent_inv _ _ _ _ h
  have hsp := endTokenStep_preserves_start _ _ _ _ _ htk
  have hstartday : r'.start.getNum .day = result.start.getNum .day := by
    rw [hr]
    dsimp only
    unfold ParsingComponents.getNum
    rw [(hsp .day (by simp) (by simp)).1]
  refine ⟨hstartday, ?_⟩
  intro e he
  have hre : r'.endc = some (endRollover
      (endMeridiemInfer
        ((step.2.2.1.assign .hour (step.1 : Int)).assign
          .minute ((decodeHourMinute m).2 : Int))
        step.2.2.2 step.1 step.2.1)
      step.2.2.2) := by
    rw [hr]
  rw [hre] at he
  injection he with he
  subst he
  have hmsp := msSecStep_preserves _ _ _ hms
  have he2d : e2.get .day = result.start.get .day ∧
      e2.isCertain .day = result.start.isCertain .day :=
    ⟨(hmsp .day (by simp) (by simp)).1, (hmsp .day (by simp) (by simp)).2⟩
  obtain ⟨he3c, he3a, he3b⟩ := endTokenStep_day _ _ _ _ _ htk
    (by rw [he2d.2]; exact hdnc)
  -- the bag before the rollover, named
  set E4 := (step.2.2.1.assign .hour (step.1 : Int)).assign
    .minute ((decodeHourMinute m).2 : Int) with hE4
  set E5 := endMeridiemInfer E4 step.2.2.2 step.1 step.2.1 with hE5
  have hE5inf := endMeridiemInfer_preserves E4 step.2.2.2 step.1 step.2.1
  have hE5day : E5.get .day = step.2.2.1.get .day ∧
      E5.isCertain .day = step.2.2.1.isCertain .day := by
    rw [hE5]
    constructor
    · rw [(hE5inf .day (by simp)).1, hE4,
        ParsingComponents.get_assign_of_ne _ _ _ _ (by simp),
        ParsingComponents.get_assign_of_ne _ _ _ _ (by simp)]
    · rw [(hE5inf .day (by simp)).2, hE4,
        ParsingComponents.isCertain_assign_of_ne _ _ _ _ (by simp),
        ParsingComponents.isCertain_assign_of_ne _ _ _ _ (by simp)]
  have hE5dnc : E5.isCertain .day = false := by
    rw [hE5day.2, he3c]
  have hE5dq : E5.getNum .day =
      (if m.ampmG = some AmPm.a ∧ (decodeHourMinute m).1 = 12 then
        result.start.getNum .day + 1 else result.start.getNum .day) := by
    by_cases hq : m.ampmG = some AmPm.a ∧ (decodeHourMinute m).1 = 12
    · rw [if_pos hq]
      unfold ParsingComponents.getNum
      rw [hE5day.1, he3a hq]
      dsimp only [Option.getD]
      unfold ParsingComponents.getNum
      rw [he2d.1]
      rfl
    · rw [if_neg hq]
      unfold ParsingComponents.getNum
      rw [hE5day.1, he3b hq, he2d.1]
  -- field equalities between E5 and the start bags, for the comparison
  have hyearE5 : E5.getNum .year = result.start.getNum .year := by
    unfold ParsingComponents.getNum
    rw [hE5, (hE5inf .year (by simp)).1, hE4,
      ParsingComponents.get_assign_of_ne _ _ _ _ (by simp),
      ParsingComponents.get_assign_of_ne _ _ _ _ (by simp),
      (endTokenStep_preserves_e _ _ _ _ _ htk .year (by simp)).1,
      (hmsp .year (by simp) (by simp)).1]
  have hmonthE5 : E5.getNum .month = result.start.getNum .month := by
    unfold ParsingComponents.getNum
    rw [hE5, (hE5inf .month (by simp)).1, hE4,
      ParsingComponents.get_assign_of_ne _ _ _ _ (by simp),
      ParsingComponents.get_assign_of_ne _ _ _ _ (by simp),
      (endTokenStep_preserves_e _ _ _ _ _ htk .month (by simp)).1,
      (hmsp .month (by simp) (by simp)).1]
  have hyearS : step.2.2.2.getNum .year = result.start.getNum .year := by
    unfold ParsingComponents.getNum
    rw [(hsp .year (by simp) (by simp)).1]
  have hmonthS : step.2.2.2.getNum .month = result.start.getNum .month := by
    unfold ParsingComponents.getNum
    rw [(hsp .month (by simp) (by simp)).1]
  have hdayS : step.2.2.2.getNum .day = result.start.getNum .day := by
    unfold ParsingComponents.getNum
    rw [(hsp .day (by simp) (by simp)).1]
  have hstart : r'.start = step.2.2.2 := by
    rw [hr]
  rw [hstart]
  have hydNum : ∀ vi : Int, (E5.imply .day vi).getNum .day = vi := by
    intro vi
    unfold ParsingComponents.getNum
    rw [ParsingComponents.get_imply_self_of_not_certain _ _ _ hE5dnc]
    rfl
  have hothers : ∀ f : Field, f ≠ .day →
      (E5.imply .day (E5.getNum .day + 1)).getNum f = E5.getNum f := by
    intro f hf
    unfold ParsingComponents.getNum
    rw [ParsingComponents.get_imply_of_ne _ _ _ _ hf]
  by_cases hq : m.ampmG = some AmPm.a ∧ (decodeHourMinute m).1 = 12
  · rw [if_pos hq]
    rw [if_pos hq] at hE5dq
    unfold endRollover
    split
    · rename_i hlt
      rw [hothers .hour (by simp), hothers .minute (by simp),
        hothers .second (by simp), hothers .millisecond (by simp),
        hydNum, hE5dq]
      unfold ParsingComponents.dateValue at hlt
      rw [hyearE5, hmonthE5, hyearS, hmonthS, hdayS, hE5dq] at hlt
      split
      · omega
      · rename_i hc
        exact absurd (by omega) hc
    · rename_i hge
      rw [hE5dq]
      unfold ParsingComponents.dateValue at hge
      rw [hyearE5, hmonthE5, hyearS, hmonthS, hdayS, hE5dq] at hge
      split
      · rename_i hc
        exact absurd (by omega) hge
      · omega
  · rw [if_neg hq]
    rw [if_neg hq] at hE5dq
    unfold endRollover
    split
    · rename_i hlt
      rw [hothers .hour (by simp), hothers .minute (by simp),
        hothers .second (by simp), hothers .millisecond (by simp),
        hydNum, hE5dq]
      unfold ParsingComponents.dateValue at hlt
      rw [hyearE5, hmonthE5, hyearS, hmonthS, hdayS, hE5dq] at hlt
      split
      · omega
      · rename_i hc
        exact absurd (by omega) hc
    · rename_i hge
      rw [hE5dq]
      unfold ParsingComponents.dateValue at hge
      rw [hyearE5, hmonthE5, hyearS, hmonthS, hdayS, hE5dq] at hge
      split
      · rename_i hc
        exact absurd (by omega) hge
      · omega

/-- C4 witness: the amended day rule at the range "11pm-1am", where the end's
day advances by one and the end hour is 1. -/
theorem claim4_witness :
    ((extractEndTimeComponent ⟨0, "11pm",
      (extractPrimaryTimeComponents rd0 raw11pmPrimary).getD
        ParsingComponents.empty, none⟩ "-1am" raw1am).getD
      ⟨0, "", ParsingComponents.empty, none⟩).endc.map
        (fun e => (e.getNum .day, e.getNum .hour)) = some (11, 1) := by
  have h : extractEndTimeComponent ⟨0, "11pm",
      (extractPrimaryTimeComponents rd0 raw11pmPrimary).getD
        ParsingComponents.empty, none⟩ "-1am" raw1am =
      some ((extractEndTimeComponent ⟨0, "11pm",
        (extractPrimaryTimeComponents rd0 raw11pmPrimary).getD
          ParsingComponents.empty, none⟩ "-1am" raw1am).getD
        ⟨0, "", ParsingComponents.empty, none⟩) := rfl
  have he : ((extractEndTimeComponent ⟨0, "11pm",
      (extractPrimaryTimeComponents rd0 raw11pmPrimary).getD
        ParsingComponents.empty, none⟩ "-1am" raw1am).getD
      ⟨0, "", ParsingComponents.empty, none⟩).endc =
      some (((extractEndTimeComponent ⟨0, "11pm",
        (extractPrimaryTimeComponents rd0 raw11pmPrimary).getD
          ParsingComponents.empty, none⟩ "-1am" raw1am).getD
        ⟨0, "", ParsingComponents.empty, none⟩).endc.getD
          ParsingComponents.empty) := rfl
  have hd := (claim4_amended _ _ _ _ h (by rfl)).2 _ he
  rw [he]
  dsimp only [Option.map]
  rw [hd]
  rfl

end Chrono
